import Mathlib

/-!
Shallow embedding of the dual-schema merge decoder of this repository.

Embedded code:
  - src/src/types/chat.rs: the extended CreateChatCompletionResponse with its
    hand-written serde Deserialize visitor and derived Serialize (which
    flattens the vanilla base record into the same JSON object), and the
    extended ChatChoice (derived Deserialize/Serialize with a flattened
    vanilla choice).
  - src/async-openai/src/types/chat.rs: the vanilla response types
    (CreateChatCompletionResponse, ChatChoice, ChatCompletionResponseMessage,
    logprob types, CompletionUsage, the response enums) and the request types
    used by Chat::create.
  - src/async-openai/src/types/content_filtering.rs: the content filtering
    result types, including the untagged ContentFilteringResults union.
  - src/src/chat.rs: Chat::create.

JSON documents are modelled by an order- and duplicate-preserving
association-list tree, matching what the streaming serde_json deserializer
presents to the visitors (duplicate keys in the wire text are delivered to
the visitor one by one, in order).  Wire numbers are modelled as integers;
the only float-typed fields (the f32 log-probabilities) are inert payload
that no decoding logic inspects.  URL parsing (the url::Url field of
Citation) is abstracted to the raw string.  serde_json's alternative
struct-from-sequence decoding is outside the modelled document space: all
modelled structs decode from JSON objects, which is the wire shape this
API uses.
-/

/-- JSON value tree.  Objects keep entry order and duplicate keys, exactly as
the streaming serde_json deserializer delivers them to a visitor. -/
inductive Json where
  | null : Json
  | bool (b : Bool) : Json
  | num (n : Int) : Json
  | str (s : String) : Json
  | arr (items : List Json) : Json
  | obj (entries : List (String × Json)) : Json

/-- Decode errors, mirroring the serde error constructors the embedded code
can produce: duplicate_field, missing_field, unknown variant (from the
derived identifier enums), invalid type, and the untagged-enum
no-variant-matched error. -/
inductive DErr where
  | duplicateField (name : String)
  | missingField (name : String)
  | unknownVariant (name : String)
  | invalidType (expected : String)
  | untaggedNoMatch (name : String)
deriving DecidableEq

/-- Whether a decode result is a success. -/
def isOkD {α : Type _} : Except DErr α → Bool
  | .ok _ => true
  | .error _ => false

/-- Deserialize a JSON string (serde: anything else is a type error). -/
def decodeString : Json → Except DErr String
  | .str s => .ok s
  | _ => .error (.invalidType "string")

/-- Deserialize a JSON bool. -/
def decodeBool : Json → Except DErr Bool
  | .bool b => .ok b
  | _ => .error (.invalidType "bool")

/-- Deserialize a u32: a number in [0, 2^32). -/
def decodeU32 : Json → Except DErr Nat
  | .num n => if 0 ≤ n ∧ n < 4294967296 then .ok n.toNat else .error (.invalidType "u32")
  | _ => .error (.invalidType "u32")

/-- Deserialize a u8: a number in [0, 2^8). -/
def decodeU8 : Json → Except DErr Nat
  | .num n => if 0 ≤ n ∧ n < 256 then .ok n.toNat else .error (.invalidType "u8")
  | _ => .error (.invalidType "u8")

/-- Deserialize an f32 field.  Wire numbers are modelled as integers; the
payload is never inspected by the merge logic. -/
def decodeF32 : Json → Except DErr Int
  | .num n => .ok n
  | _ => .error (.invalidType "f32")

/-- Deserialize an i64. -/
def decodeI64 : Json → Except DErr Int
  | .num n => if -9223372036854775808 ≤ n ∧ n < 9223372036854775808 then .ok n
              else .error (.invalidType "i64")
  | _ => .error (.invalidType "i64")

/-- serde Option semantics: null becomes None, anything else is decoded. -/
def decodeOpt {α : Type _} (f : Json → Except DErr α) : Json → Except DErr (Option α)
  | .null => .ok none
  | v => (f v).map some

/-- Deserialize the elements of a JSON array in order (serde Vec). -/
def decodeListAux {α : Type _} (f : Json → Except DErr α) : List Json → Except DErr (List α)
  | [] => .ok []
  | j :: rest =>
      match f j with
      | .error e => .error e
      | .ok x =>
        match decodeListAux f rest with
        | .error e => .error e
        | .ok xs => .ok (x :: xs)

/-- Deserialize a Vec: a JSON array whose elements all decode. -/
def decodeList {α : Type _} (f : Json → Except DErr α) : Json → Except DErr (List α)
  | .arr items => decodeListAux f items
  | _ => .error (.invalidType "sequence")

/-- Serialize an Option field that has no skip attribute: serde emits null
for None (none of the embedded response structs use skip_serializing_if). -/
def encodeOpt {α : Type _} (f : α → Json) : Option α → Json
  | none => Json.null
  | some x => f x

/-- Top-level keys of an encoded JSON object (empty for non-objects). -/
def jsonTopKeys : Json → List String
  | .obj entries => entries.map Prod.fst
  | _ => []

/-- Whether a JSON value is an object containing the given key. -/
def objHasKey (j : Json) (k : String) : Bool :=
  match j with
  | .obj entries => decide (k ∈ entries.map Prod.fst)
  | _ => false

/-- Whether a document carries no extension field at all: no top-level
prompt_filter_results key, and no content_filter_results key inside any
element of any choices array. -/
def extensionFree : Json → Bool
  | .obj entries =>
      decide ("prompt_filter_results" ∉ entries.map Prod.fst) &&
      entries.all (fun kv =>
        if kv.1 = "choices" then
          match kv.2 with
          | .arr ds => ds.all (fun cj => !objHasKey cj "content_filter_results")
          | _ => true
        else true)
  | _ => true

namespace AsyncOpenai

/-- async_openai::types::Role (wire: lowercase). -/
inductive Role where
  | System
  | User
  | Assistant
  | Tool
  | Function
deriving DecidableEq

def Role.deserialize : Json → Except DErr Role
  | .str s =>
      if s = "system" then .ok .System
      else if s = "user" then .ok .User
      else if s = "assistant" then .ok .Assistant
      else if s = "tool" then .ok .Tool
      else if s = "function" then .ok .Function
      else .error (.unknownVariant s)
  | _ => .error (.invalidType "string")

def Role.serialize : Role → Json
  | .System => .str "system"
  | .User => .str "user"
  | .Assistant => .str "assistant"
  | .Tool => .str "tool"
  | .Function => .str "function"

/-- async_openai::types::FinishReason (wire: snake_case). -/
inductive FinishReason where
  | Stop
  | Length
  | ToolCalls
  | ContentFilter
  | FunctionCall
deriving DecidableEq

def FinishReason.deserialize : Json → Except DErr FinishReason
  | .str s =>
      if s = "stop" then .ok .Stop
      else if s = "length" then .ok .Length
      else if s = "tool_calls" then .ok .ToolCalls
      else if s = "content_filter" then .ok .ContentFilter
      else if s = "function_call" then .ok .FunctionCall
      else .error (.unknownVariant s)
  | _ => .error (.invalidType "string")

def FinishReason.serialize : FinishReason → Json
  | .Stop => .str "stop"
  | .Length => .str "length"
  | .ToolCalls => .str "tool_calls"
  | .ContentFilter => .str "content_filter"
  | .FunctionCall => .str "function_call"

/-- async_openai::types::ServiceTierResponse (wire: lowercase). -/
inductive ServiceTierResponse where
  | Scale
  | Default
deriving DecidableEq

def ServiceTierResponse.deserialize : Json → Except DErr ServiceTierResponse
  | .str s =>
      if s = "scale" then .ok .Scale
      else if s = "default" then .ok .Default
      else .error (.unknownVariant s)
  | _ => .error (.invalidType "string")

def ServiceTierResponse.serialize : ServiceTierResponse → Json
  | .Scale => .str "scale"
  | .Default => .str "default"

/-- async_openai::types::ChatCompletionToolType (wire: lowercase). -/
inductive ChatCompletionToolType where
  | Function
deriving DecidableEq

def ChatCompletionToolType.deserialize : Json → Except DErr ChatCompletionToolType
  | .str s =>
      if s = "function" then .ok .Function
      else .error (.unknownVariant s)
  | _ => .error (.invalidType "string")

def ChatCompletionToolType.serialize : ChatCompletionToolType → Json
  | .Function => .str "function"

/-- async_openai::types::content_filtering::Severity (wire: lowercase). -/
inductive Severity where
  | Safe
  | Low
  | Medium
  | High
deriving DecidableEq

def Severity.deserialize : Json → Except DErr Severity
  | .str s =>
      if s = "safe" then .ok .Safe
      else if s = "low" then .ok .Low
      else if s = "medium" then .ok .Medium
      else if s = "high" then .ok .High
      else .error (.unknownVariant s)
  | _ => .error (.invalidType "string")

def Severity.serialize : Severity → Json
  | .Safe => .str "safe"
  | .Low => .str "low"
  | .Medium => .str "medium"
  | .High => .str "high"

/-- async_openai::types::content_filtering::SeverityResult. -/
structure SeverityResult where
  filtered : Bool
  severity : Option Severity
deriving DecidableEq

/-- Derived visit_map loop for SeverityResult: duplicate keys rejected,
unknown keys ignored, Option field accepts null, missing field checks in
declaration order after the walk. -/
def SeverityResult.loopD :
    List (String × Json) → Option Bool → Option (Option Severity) →
    Except DErr SeverityResult
  | [], filtered?, severity? =>
      match filtered? with
      | none => .error (.missingField "filtered")
      | some filtered => .ok { filtered := filtered, severity := severity?.getD none }
  | (k, v) :: rest, filtered?, severity? =>
      if k = "filtered" then
        match filtered? with
        | some _ => .error (.duplicateField "filtered")
        | none => do
            let x ← decodeBool v
            SeverityResult.loopD rest (some x) severity?
      else if k = "severity" then
        match severity? with
        | some _ => .error (.duplicateField "severity")
        | none => do
            let x ← decodeOpt Severity.deserialize v
            SeverityResult.loopD rest filtered? (some x)
      else SeverityResult.loopD rest filtered? severity?

def SeverityResult.deserialize : Json → Except DErr SeverityResult
  | .obj entries => SeverityResult.loopD entries none none
  | _ => .error (.invalidType "struct SeverityResult")

def SeverityResult.serialize (r : SeverityResult) : Json :=
  .obj [("filtered", .bool r.filtered),
        ("severity", encodeOpt Severity.serialize r.severity)]

/-- async_openai::types::content_filtering::DetectedResult. -/
structure DetectedResult where
  filtered : Bool
  detected : Bool
deriving DecidableEq

/-- Derived visit_map loop for DetectedResult (entry-list form, also used as
the flatten target of DetectedWithCitationResult). -/
def DetectedResult.loopD :
    List (String × Json) → Option Bool → Option Bool → Except DErr DetectedResult
  | [], filtered?, detected? =>
      match filtered? with
      | none => .error (.missingField "filtered")
      | some filtered =>
        match detected? with
        | none => .error (.missingField "detected")
        | some detected => .ok { filtered := filtered, detected := detected }
  | (k, v) :: rest, filtered?, detected? =>
      if k = "filtered" then
        match filtered? with
        | some _ => .error (.duplicateField "filtered")
        | none => do
            let x ← decodeBool v
            DetectedResult.loopD rest (some x) detected?
      else if k = "detected" then
        match detected? with
        | some _ => .error (.duplicateField "detected")
        | none => do
            let x ← decodeBool v
            DetectedResult.loopD rest filtered? (some x)
      else DetectedResult.loopD rest filtered? detected?

def DetectedResult.deserialize : Json → Except DErr DetectedResult
  | .obj entries => DetectedResult.loopD entries none none
  | _ => .error (.invalidType "struct DetectedResult")

def DetectedResult.serializeEntries (r : DetectedResult) : List (String × Json) :=
  [("filtered", .bool r.filtered), ("detected", .bool r.detected)]

def DetectedResult.serialize (r : DetectedResult) : Json :=
  .obj r.serializeEntries

/-- url::Url, abstracted to its raw string (URL well-formedness is not
load-bearing for any embedded logic). -/
structure Url where
  url : String
deriving DecidableEq

def Url.deserialize : Json → Except DErr Url
  | .str s => .ok { url := s }
  | _ => .error (.invalidType "string")

def Url.serialize (u : Url) : Json := .str u.url

/-- async_openai::types::content_filtering::Citation.  The url field carries
the serde attribute rename = "lowercase", so its wire key is literally
"lowercase". -/
structure Citation where
  url : Url
  license : String
deriving DecidableEq

def Citation.loopD :
    List (String × Json) → Option Url → Option String → Except DErr Citation
  | [], url?, license? =>
      match url? with
      | none => .error (.missingField "lowercase")
      | some url =>
        match license? with
        | none => .error (.missingField "license")
        | some license => .ok { url := url, license := license }
  | (k, v) :: rest, url?, license? =>
      if k = "lowercase" then
        match url? with
        | some _ => .error (.duplicateField "lowercase")
        | none => do
            let x ← Url.deserialize v
            Citation.loopD rest (some x) license?
      else if k = "license" then
        match license? with
        | some _ => .error (.duplicateField "license")
        | none => do
            let x ← decodeString v
            Citation.loopD rest url? (some x)
      else Citation.loopD rest url? license?

def Citation.deserialize : Json → Except DErr Citation
  | .obj entries => Citation.loopD entries none none
  | _ => .error (.invalidType "struct Citation")

def Citation.serialize (c : Citation) : Json :=
  .obj [("lowercase", Url.serialize c.url), ("license", .str c.license)]

/-- async_openai::types::content_filtering::DetectedWithCitationResult:
a flattened DetectedResult plus an optional citation. -/
structure DetectedWithCitationResult where
  detected_result : DetectedResult
  citation : Option Citation
deriving DecidableEq

/-- Derived loop with a flattened field: the named key citation is consumed
directly (with a duplicate check); every other entry is buffered in order and
deserialized as the flattened DetectedResult after the walk. -/
def DetectedWithCitationResult.loopD :
    List (String × Json) → Option (Option Citation) → List (String × Json) →
    Except DErr DetectedWithCitationResult
  | [], citation?, buf => do
      let d ← DetectedResult.loopD buf none none
      .ok { detected_result := d, citation := citation?.getD none }
  | (k, v) :: rest, citation?, buf =>
      if k = "citation" then
        match citation? with
        | some _ => .error (.duplicateField "citation")
        | none => do
            let x ← decodeOpt Citation.deserialize v
            DetectedWithCitationResult.loopD rest (some x) buf
      else DetectedWithCitationResult.loopD rest citation? (buf ++ [(k, v)])

def DetectedWithCitationResult.deserialize : Json → Except DErr DetectedWithCitationResult
  | .obj entries => DetectedWithCitationResult.loopD entries none []
  | _ => .error (.invalidType "struct DetectedWithCitationResult")

def DetectedWithCitationResult.serialize (r : DetectedWithCitationResult) : Json :=
  .obj (r.detected_result.serializeEntries ++
        [("citation", encodeOpt Citation.serialize r.citation)])

/-- async_openai::types::content_filtering::BaseResults (all fields
optional).  It only occurs as a flatten target, so it is deserialized from
the buffered entries left over by the outer struct; unknown keys are
ignored. -/
structure BaseResults where
  sexual : Option SeverityResult
  violence : Option SeverityResult
  hate : Option SeverityResult
  self_harm : Option SeverityResult
  profanity : Option DetectedResult
deriving DecidableEq

def BaseResults.loopD :
    List (String × Json) → Option (Option SeverityResult) → Option (Option SeverityResult) →
    Option (Option SeverityResult) → Option (Option SeverityResult) →
    Option (Option DetectedResult) → Except DErr BaseResults
  | [], sexual?, violence?, hate?, selfHarm?, profanity? =>
      .ok { sexual := sexual?.getD none, violence := violence?.getD none,
            hate := hate?.getD none, self_harm := selfHarm?.getD none,
            profanity := profanity?.getD none }
  | (k, v) :: rest, sexual?, violence?, hate?, selfHarm?, profanity? =>
      if k = "sexual" then
        match sexual? with
        | some _ => .error (.duplicateField "sexual")
        | none => do
            let x ← decodeOpt SeverityResult.deserialize v
            BaseResults.loopD rest (some x) violence? hate? selfHarm? profanity?
      else if k = "violence" then
        match violence? with
        | some _ => .error (.duplicateField "violence")
        | none => do
            let x ← decodeOpt SeverityResult.deserialize v
            BaseResults.loopD rest sexual? (some x) hate? selfHarm? profanity?
      else if k = "hate" then
        match hate? with
        | some _ => .error (.duplicateField "hate")
        | none => do
            let x ← decodeOpt SeverityResult.deserialize v
            BaseResults.loopD rest sexual? violence? (some x) selfHarm? profanity?
      else if k = "self_harm" then
        match selfHarm? with
        | some _ => .error (.duplicateField "self_harm")
        | none => do
            let x ← decodeOpt SeverityResult.deserialize v
            BaseResults.loopD rest sexual? violence? hate? (some x) profanity?
      else if k = "profanity" then
        match profanity? with
        | some _ => .error (.duplicateField "profanity")
        | none => do
            let x ← decodeOpt DetectedResult.deserialize v
            BaseResults.loopD rest sexual? violence? hate? selfHarm? (some x)
      else BaseResults.loopD rest sexual? violence? hate? selfHarm? profanity?

def BaseResults.fromEntries (entries : List (String × Json)) : Except DErr BaseResults :=
  BaseResults.loopD entries none none none none none

def BaseResults.serializeEntries (r : BaseResults) : List (String × Json) :=
  [("sexual", encodeOpt SeverityResult.serialize r.sexual),
   ("violence", encodeOpt SeverityResult.serialize r.violence),
   ("hate", encodeOpt SeverityResult.serialize r.hate),
   ("self_harm", encodeOpt SeverityResult.serialize r.self_harm),
   ("profanity", encodeOpt DetectedResult.serialize r.profanity)]

/-- async_openai::types::content_filtering::PromptResults: flattened
BaseResults plus jailbreak. -/
structure PromptResults where
  results : BaseResults
  jailbreak : Option DetectedResult
deriving DecidableEq

def PromptResults.loopD :
    List (String × Json) → Option (Option DetectedResult) → List (String × Json) →
    Except DErr PromptResults
  | [], jailbreak?, buf => do
      let base ← BaseResults.fromEntries buf
      .ok { results := base, jailbreak := jailbreak?.getD none }
  | (k, v) :: rest, jailbreak?, buf =>
      if k = "jailbreak" then
        match jailbreak? with
        | some _ => .error (.duplicateField "jailbreak")
        | none => do
            let x ← decodeOpt DetectedResult.deserialize v
            PromptResults.loopD rest (some x) buf
      else PromptResults.loopD rest jailbreak? (buf ++ [(k, v)])

def PromptResults.deserialize : Json → Except DErr PromptResults
  | .obj entries => PromptResults.loopD entries none []
  | _ => .error (.invalidType "struct PromptResults")

def PromptResults.serialize (r : PromptResults) : Json :=
  .obj (r.results.serializeEntries ++
        [("jailbreak", encodeOpt DetectedResult.serialize r.jailbreak)])

/-- async_openai::types::content_filtering::ChoiceResults: flattened
BaseResults plus the protected-material fields. -/
structure ChoiceResults where
  results : BaseResults
  protected_material_text : Option DetectedResult
  protected_material_code : Option DetectedWithCitationResult
deriving DecidableEq

def ChoiceResults.loopD :
    List (String × Json) → Option (Option DetectedResult) →
    Option (Option DetectedWithCitationResult) → List (String × Json) →
    Except DErr ChoiceResults
  | [], text?, code?, buf => do
      let base ← BaseResults.fromEntries buf
      .ok { results := base, protected_material_text := text?.getD none,
            protected_material_code := code?.getD none }
  | (k, v) :: rest, text?, code?, buf =>
      if k = "protected_material_text" then
        match text? with
        | some _ => .error (.duplicateField "protected_material_text")
        | none => do
            let x ← decodeOpt DetectedResult.deserialize v
            ChoiceResults.loopD rest (some x) code? buf
      else if k = "protected_material_code" then
        match code? with
        | some _ => .error (.duplicateField "protected_material_code")
        | none => do
            let x ← decodeOpt DetectedWithCitationResult.deserialize v
            ChoiceResults.loopD rest text? (some x) buf
      else ChoiceResults.loopD rest text? code? (buf ++ [(k, v)])

def ChoiceResults.deserialize : Json → Except DErr ChoiceResults
  | .obj entries => ChoiceResults.loopD entries none none []
  | _ => .error (.invalidType "struct ChoiceResults")

def ChoiceResults.serialize (r : ChoiceResults) : Json :=
  .obj (r.results.serializeEntries ++
        [("protected_material_text", encodeOpt DetectedResult.serialize r.protected_material_text),
         ("protected_material_code", encodeOpt DetectedWithCitationResult.serialize r.protected_material_code)])

/-- async_openai::types::content_filtering::Error: the {code, message}
failure report of the filtering backend. -/
structure Error where
  code : String
  message : String
deriving DecidableEq

def Error.loopD :
    List (String × Json) → Option String → Option String → Except DErr Error
  | [], code?, message? =>
      match code? with
      | none => .error (.missingField "code")
      | some code =>
        match message? with
        | none => .error (.missingField "message")
        | some message => .ok { code := code, message := message }
  | (k, v) :: rest, code?, message? =>
      if k = "code" then
        match code? with
        | some _ => .error (.duplicateField "code")
        | none => do
            let x ← decodeString v
            Error.loopD rest (some x) message?
      else if k = "message" then
        match message? with
        | some _ => .error (.duplicateField "message")
        | none => do
            let x ← decodeString v
            Error.loopD rest code? (some x)
      else Error.loopD rest code? message?

def Error.deserialize : Json → Except DErr Error
  | .obj entries => Error.loopD entries none none
  | _ => .error (.invalidType "struct Error")

def Error.serialize (e : Error) : Json :=
  .obj [("code", .str e.code), ("message", .str e.message)]

/-- async_openai::types::content_filtering::ContentFilteringResults, the
untagged serde union of a successful report and a backend Error. -/
inductive ContentFilteringResults (T : Type) where
  | Ok (t : T)
  | Err (e : Error)
deriving DecidableEq

/-- serde untagged deserialization: try the variants in declaration order
(Ok first, then Err), and fail with the no-variant-matched error if neither
shape fits. -/
def ContentFilteringResults.deserialize {T : Type}
    (dT : Json → Except DErr T) (v : Json) :
    Except DErr (ContentFilteringResults T) :=
  match dT v with
  | .ok t => .ok (.Ok t)
  | .error _ =>
    match Error.deserialize v with
    | .ok e => .ok (.Err e)
    | .error _ => .error (.untaggedNoMatch "ContentFilteringResults")

/-- serde untagged serialization: the active variant is serialized with no
discriminator tag. -/
def ContentFilteringResults.serialize {T : Type}
    (sT : T → Json) : ContentFilteringResults T → Json
  | .Ok t => sT t
  | .Err e => Error.serialize e

/-- async_openai::types::FunctionCall. -/
structure FunctionCall where
  name : String
  arguments : String
deriving DecidableEq

def FunctionCall.loopD :
    List (String × Json) → Option String → Option String → Except DErr FunctionCall
  | [], name?, arguments? =>
      match name? with
      | none => .error (.missingField "name")
      | some name =>
        match arguments? with
        | none => .error (.missingField "arguments")
        | some arguments => .ok { name := name, arguments := arguments }
  | (k, v) :: rest, name?, arguments? =>
      if k = "name" then
        match name? with
        | some _ => .error (.duplicateField "name")
        | none => do
            let x ← decodeString v
            FunctionCall.loopD rest (some x) arguments?
      else if k = "arguments" then
        match arguments? with
        | some _ => .error (.duplicateField "arguments")
        | none => do
            let x ← decodeString v
            FunctionCall.loopD rest name? (some x)
      else FunctionCall.loopD rest name? arguments?

def FunctionCall.deserialize : Json → Except DErr FunctionCall
  | .obj entries => FunctionCall.loopD entries none none
  | _ => .error (.invalidType "struct FunctionCall")

def FunctionCall.serialize (f : FunctionCall) : Json :=
  .obj [("name", .str f.name), ("arguments", .str f.arguments)]

/-- async_openai::types::ChatCompletionMessageToolCall (the r#type field has
wire key "type"). -/
structure ChatCompletionMessageToolCall where
  id : String
  type : ChatCompletionToolType
  function : FunctionCall
deriving DecidableEq

def ChatCompletionMessageToolCall.loopD :
    List (String × Json) → Option String → Option ChatCompletionToolType →
    Option FunctionCall → Except DErr ChatCompletionMessageToolCall
  | [], id?, type?, function? =>
      match id? with
      | none => .error (.missingField "id")
      | some id =>
        match type? with
        | none => .error (.missingField "type")
        | some ty =>
          match function? with
          | none => .error (.missingField "function")
          | some fc => .ok { id := id, type := ty, function := fc }
  | (k, v) :: rest, id?, type?, function? =>
      if k = "id" then
        match id? with
        | some _ => .error (.duplicateField "id")
        | none => do
            let x ← decodeString v
            ChatCompletionMessageToolCall.loopD rest (some x) type? function?
      else if k = "type" then
        match type? with
        | some _ => .error (.duplicateField "type")
        | none => do
            let x ← ChatCompletionToolType.deserialize v
            ChatCompletionMessageToolCall.loopD rest id? (some x) function?
      else if k = "function" then
        match function? with
        | some _ => .error (.duplicateField "function")
        | none => do
            let x ← FunctionCall.deserialize v
            ChatCompletionMessageToolCall.loopD rest id? type? (some x)
      else ChatCompletionMessageToolCall.loopD rest id? type? function?

def ChatCompletionMessageToolCall.deserialize : Json → Except DErr ChatCompletionMessageToolCall
  | .obj entries => ChatCompletionMessageToolCall.loopD entries none none none
  | _ => .error (.invalidType "struct ChatCompletionMessageToolCall")

def ChatCompletionMessageToolCall.serialize (t : ChatCompletionMessageToolCall) : Json :=
  .obj [("id", .str t.id),
        ("type", ChatCompletionToolType.serialize t.type),
        ("function", FunctionCall.serialize t.function)]

/-- async_openai::types::ChatCompletionResponseMessage. -/
structure ChatCompletionResponseMessage where
  content : Option String
  refusal : Option String
  tool_calls : Option (List ChatCompletionMessageToolCall)
  role : Role
  function_call : Option FunctionCall
deriving DecidableEq

def ChatCompletionResponseMessage.loopD :
    List (String × Json) → Option (Option String) → Option (Option String) →
    Option (Option (List ChatCompletionMessageToolCall)) → Option Role →
    Option (Option FunctionCall) → Except DErr ChatCompletionResponseMessage
  | [], content?, refusal?, toolCalls?, role?, functionCall? =>
      match role? with
      | none => .error (.missingField "role")
      | some role =>
          .ok { content := content?.getD none, refusal := refusal?.getD none,
                tool_calls := toolCalls?.getD none, role := role,
                function_call := functionCall?.getD none }
  | (k, v) :: rest, content?, refusal?, toolCalls?, role?, functionCall? =>
      if k = "content" then
        match content? with
        | some _ => .error (.duplicateField "content")
        | none => do
            let x ← decodeOpt decodeString v
            ChatCompletionResponseMessage.loopD rest (some x) refusal? toolCalls? role? functionCall?
      else if k = "refusal" then
        match refusal? with
        | some _ => .error (.duplicateField "refusal")
        | none => do
            let x ← decodeOpt decodeString v
            ChatCompletionResponseMessage.loopD rest content? (some x) toolCalls? role? functionCall?
      else if k = "tool_calls" then
        match toolCalls? with
        | some _ => .error (.duplicateField "tool_calls")
        | none => do
            let x ← decodeOpt (decodeList ChatCompletionMessageToolCall.deserialize) v
            ChatCompletionResponseMessage.loopD rest content? refusal? (some x) role? functionCall?
      else if k = "role" then
        match role? with
        | some _ => .error (.duplicateField "role")
        | none => do
            let x ← Role.deserialize v
            ChatCompletionResponseMessage.loopD rest content? refusal? toolCalls? (some x) functionCall?
      else if k = "function_call" then
        match functionCall? with
        | some _ => .error (.duplicateField "function_call")
        | none => do
            let x ← decodeOpt FunctionCall.deserialize v
            ChatCompletionResponseMessage.loopD rest content? refusal? toolCalls? role? (some x)
      else ChatCompletionResponseMessage.loopD rest content? refusal? toolCalls? role? functionCall?

def ChatCompletionResponseMessage.deserialize : Json → Except DErr ChatCompletionResponseMessage
  | .obj entries => ChatCompletionResponseMessage.loopD entries none none none none none
  | _ => .error (.invalidType "struct ChatCompletionResponseMessage")

def ChatCompletionResponseMessage.serialize (m : ChatCompletionResponseMessage) : Json :=
  .obj [("content", encodeOpt Json.str m.content),
        ("refusal", encodeOpt Json.str m.refusal),
        ("tool_calls", encodeOpt (fun l => Json.arr (l.map ChatCompletionMessageToolCall.serialize)) m.tool_calls),
        ("role", Role.serialize m.role),
        ("function_call", encodeOpt FunctionCall.serialize m.function_call)]

/-- async_openai::types::TopLogprobs. -/
structure TopLogprobs where
  token : String
  logprob : Int
  bytes : Option (List Nat)
deriving DecidableEq

def TopLogprobs.loopD :
    List (String × Json) → Option String → Option Int → Option (Option (List Nat)) →
    Except DErr TopLogprobs
  | [], token?, logprob?, bytes? =>
      match token? with
      | none => .error (.missingField "token")
      | some token =>
        match logprob? with
        | none => .error (.missingField "logprob")
        | some logprob =>
            .ok { token := token, logprob := logprob, bytes := bytes?.getD none }
  | (k, v) :: rest, token?, logprob?, bytes? =>
      if k = "token" then
        match token? with
        | some _ => .error (.duplicateField "token")
        | none => do
            let x ← decodeString v
            TopLogprobs.loopD rest (some x) logprob? bytes?
      else if k = "logprob" then
        match logprob? with
        | some _ => .error (.duplicateField "logprob")
        | none => do
            let x ← decodeF32 v
            TopLogprobs.loopD rest token? (some x) bytes?
      else if k = "bytes" then
        match bytes? with
        | some _ => .error (.duplicateField "bytes")
        | none => do
            let x ← decodeOpt (decodeList decodeU8) v
            TopLogprobs.loopD rest token? logprob? (some x)
      else TopLogprobs.loopD rest token? logprob? bytes?

def TopLogprobs.deserialize : Json → Except DErr TopLogprobs
  | .obj entries => TopLogprobs.loopD entries none none none
  | _ => .error (.invalidType "struct TopLogprobs")

def TopLogprobs.serialize (t : TopLogprobs) : Json :=
  .obj [("token", .str t.token), ("logprob", .num t.logprob),
        ("bytes", encodeOpt (fun l => Json.arr (l.map (fun b => Json.num b))) t.bytes)]

/-- async_openai::types::ChatCompletionTokenLogprob. -/
structure ChatCompletionTokenLogprob where
  token : String
  logprob : Int
  bytes : Option (List Nat)
  top_logprobs : List TopLogprobs
deriving DecidableEq

def ChatCompletionTokenLogprob.loopD :
    List (String × Json) → Option String → Option Int → Option (Option (List Nat)) →
    Option (List TopLogprobs) → Except DErr ChatCompletionTokenLogprob
  | [], token?, logprob?, bytes?, top? =>
      match token? with
      | none => .error (.missingField "token")
      | some token =>
        match logprob? with
        | none => .error (.missingField "logprob")
        | some logprob =>
          match top? with
          | none => .error (.missingField "top_logprobs")
          | some top =>
              .ok { token := token, logprob := logprob, bytes := bytes?.getD none,
                    top_logprobs := top }
  | (k, v) :: rest, token?, logprob?, bytes?, top? =>
      if k = "token" then
        match token? with
        | some _ => .error (.duplicateField "token")
        | none => do
            let x ← decodeString v
            ChatCompletionTokenLogprob.loopD rest (some x) logprob? bytes? top?
      else if k = "logprob" then
        match logprob? with
        | some _ => .error (.duplicateField "logprob")
        | none => do
            let x ← decodeF32 v
            ChatCompletionTokenLogprob.loopD rest token? (some x) bytes? top?
      else if k = "bytes" then
        match bytes? with
        | some _ => .error (.duplicateField "bytes")
        | none => do
            let x ← decodeOpt (decodeList decodeU8) v
            ChatCompletionTokenLogprob.loopD rest token? logprob? (some x) top?
      else if k = "top_logprobs" then
        match top? with
        | some _ => .error (.duplicateField "top_logprobs")
        | none => do
            let x ← decodeList TopLogprobs.deserialize v
            ChatCompletionTokenLogprob.loopD rest token? logprob? bytes? (some x)
      else ChatCompletionTokenLogprob.loopD rest token? logprob? bytes? top?

def ChatCompletionTokenLogprob.deserialize : Json → Except DErr ChatCompletionTokenLogprob
  | .obj entries => ChatCompletionTokenLogprob.loopD entries none none none none
  | _ => .error (.invalidType "struct ChatCompletionTokenLogprob")

def ChatCompletionTokenLogprob.serialize (t : ChatCompletionTokenLogprob) : Json :=
  .obj [("token", .str t.token), ("logprob", .num t.logprob),
        ("bytes", encodeOpt (fun l => Json.arr (l.map (fun b => Json.num b))) t.bytes),
        ("top_logprobs", .arr (t.top_logprobs.map TopLogprobs.serialize))]

/-- async_openai::types::ChatChoiceLogprobs. -/
structure ChatChoiceLogprobs where
  content : Option (List ChatCompletionTokenLogprob)
  refusal : Option (List ChatCompletionTokenLogprob)
deriving DecidableEq

def ChatChoiceLogprobs.loopD :
    List (String × Json) → Option (Option (List ChatCompletionTokenLogprob)) →
    Option (Option (List ChatCompletionTokenLogprob)) → Except DErr ChatChoiceLogprobs
  | [], content?, refusal? =>
      .ok { content := content?.getD none, refusal := refusal?.getD none }
  | (k, v) :: rest, content?, refusal? =>
      if k = "content" then
        match content? with
        | some _ => .error (.duplicateField "content")
        | none => do
            let x ← decodeOpt (decodeList ChatCompletionTokenLogprob.deserialize) v
            ChatChoiceLogprobs.loopD rest (some x) refusal?
      else if k = "refusal" then
        match refusal? with
        | some _ => .error (.duplicateField "refusal")
        | none => do
            let x ← decodeOpt (decodeList ChatCompletionTokenLogprob.deserialize) v
            ChatChoiceLogprobs.loopD rest content? (some x)
      else ChatChoiceLogprobs.loopD rest content? refusal?

def ChatChoiceLogprobs.deserialize : Json → Except DErr ChatChoiceLogprobs
  | .obj entries => ChatChoiceLogprobs.loopD entries none none
  | _ => .error (.invalidType "struct ChatChoiceLogprobs")

def ChatChoiceLogprobs.serialize (l : ChatChoiceLogprobs) : Json :=
  .obj [("content", encodeOpt (fun c => Json.arr (c.map ChatCompletionTokenLogprob.serialize)) l.content),
        ("refusal", encodeOpt (fun c => Json.arr (c.map ChatCompletionTokenLogprob.serialize)) l.refusal)]

/-- async_openai::types::CompletionUsage. -/
structure CompletionUsage where
  prompt_tokens : Nat
  completion_tokens : Nat
  total_tokens : Nat
deriving DecidableEq

def CompletionUsage.loopD :
    List (String × Json) → Option Nat → Option Nat → Option Nat →
    Except DErr CompletionUsage
  | [], prompt?, completion?, total? =>
      match prompt? with
      | none => .error (.missingField "prompt_tokens")
      | some p =>
        match completion? with
        | none => .error (.missingField "completion_tokens")
        | some c =>
          match total? with
          | none => .error (.missingField "total_tokens")
          | some t => .ok { prompt_tokens := p, completion_tokens := c, total_tokens := t }
  | (k, v) :: rest, prompt?, completion?, total? =>
      if k = "prompt_tokens" then
        match prompt? with
        | some _ => .error (.duplicateField "prompt_tokens")
        | none => do
            let x ← decodeU32 v
            CompletionUsage.loopD rest (some x) completion? total?
      else if k = "completion_tokens" then
        match completion? with
        | some _ => .error (.duplicateField "completion_tokens")
        | none => do
            let x ← decodeU32 v
            CompletionUsage.loopD rest prompt? (some x) total?
      else if k = "total_tokens" then
        match total? with
        | some _ => .error (.duplicateField "total_tokens")
        | none => do
            let x ← decodeU32 v
            CompletionUsage.loopD rest prompt? completion? (some x)
      else CompletionUsage.loopD rest prompt? completion? total?

def CompletionUsage.deserialize : Json → Except DErr CompletionUsage
  | .obj entries => CompletionUsage.loopD entries none none none
  | _ => .error (.invalidType "struct CompletionUsage")

def CompletionUsage.serialize (u : CompletionUsage) : Json :=
  .obj [("prompt_tokens", .num u.prompt_tokens),
        ("completion_tokens", .num u.completion_tokens),
        ("total_tokens", .num u.total_tokens)]

/-- async_openai::types::ChatChoice (the vanilla choice of this fork, which
already carries an optional content_filter_results slot). -/
structure ChatChoice where
  index : Nat
  message : ChatCompletionResponseMessage
  finish_reason : Option FinishReason
  logprobs : Option ChatChoiceLogprobs
  content_filter_results : Option (ContentFilteringResults ChoiceResults)
deriving DecidableEq

def ChatChoice.loopD :
    List (String × Json) → Option Nat → Option ChatCompletionResponseMessage →
    Option (Option FinishReason) → Option (Option ChatChoiceLogprobs) →
    Option (Option (ContentFilteringResults ChoiceResults)) → Except DErr ChatChoice
  | [], index?, message?, finish?, logprobs?, cfr? =>
      match index? with
      | none => .error (.missingField "index")
      | some index =>
        match message? with
        | none => .error (.missingField "message")
        | some message =>
            .ok { index := index, message := message,
                  finish_reason := finish?.getD none, logprobs := logprobs?.getD none,
                  content_filter_results := cfr?.getD none }
  | (k, v) :: rest, index?, message?, finish?, logprobs?, cfr? =>
      if k = "index" then
        match index? with
        | some _ => .error (.duplicateField "index")
        | none => do
            let x ← decodeU32 v
            ChatChoice.loopD rest (some x) message? finish? logprobs? cfr?
      else if k = "message" then
        match message? with
        | some _ => .error (.duplicateField "message")
        | none => do
            let x ← ChatCompletionResponseMessage.deserialize v
            ChatChoice.loopD rest index? (some x) finish? logprobs? cfr?
      else if k = "finish_reason" then
        match finish? with
        | some _ => .error (.duplicateField "finish_reason")
        | none => do
            let x ← decodeOpt FinishReason.deserialize v
            ChatChoice.loopD rest index? message? (some x) logprobs? cfr?
      else if k = "logprobs" then
        match logprobs? with
        | some _ => .error (.duplicateField "logprobs")
        | none => do
            let x ← decodeOpt ChatChoiceLogprobs.deserialize v
            ChatChoice.loopD rest index? message? finish? (some x) cfr?
      else if k = "content_filter_results" then
        match cfr? with
        | some _ => .error (.duplicateField "content_filter_results")
        | none => do
            let x ← decodeOpt (ContentFilteringResults.deserialize ChoiceResults.deserialize) v
            ChatChoice.loopD rest index? message? finish? logprobs? (some x)
      else ChatChoice.loopD rest index? message? finish? logprobs? cfr?

def ChatChoice.deserialize : Json → Except DErr ChatChoice
  | .obj entries => ChatChoice.loopD entries none none none none none
  | _ => .error (.invalidType "struct ChatChoice")

/-- Serialized entries of the vanilla choice, in field declaration order
(used both standalone and inlined by the flattened extended choice). -/
def ChatChoice.serializeEntries (c : ChatChoice) : List (String × Json) :=
  [("index", .num c.index),
   ("message", ChatCompletionResponseMessage.serialize c.message),
   ("finish_reason", encodeOpt FinishReason.serialize c.finish_reason),
   ("logprobs", encodeOpt ChatChoiceLogprobs.serialize c.logprobs),
   ("content_filter_results",
    encodeOpt (ContentFilteringResults.serialize ChoiceResults.serialize) c.content_filter_results)]

def ChatChoice.serialize (c : ChatChoice) : Json :=
  .obj c.serializeEntries

/-- async_openai::types::CreateChatCompletionResponse, the vanilla base
record.  Its own derived Deserialize is never invoked by the extension crate
(the hand-written visitor rebuilds it field by field), but its derived
Serialize is inlined into the extended record through serde flatten. -/
structure CreateChatCompletionResponse where
  id : String
  choices : List ChatChoice
  created : Nat
  model : String
  service_tier : Option ServiceTierResponse
  system_fingerprint : Option String
  object : String
  usage : Option CompletionUsage
deriving DecidableEq

/-- Serialized entries of the vanilla response, in field declaration order,
as serde flatten inlines them into the enclosing object. -/
def CreateChatCompletionResponse.serializeEntries (r : CreateChatCompletionResponse) :
    List (String × Json) :=
  [("id", .str r.id),
   ("choices", .arr (r.choices.map ChatChoice.serialize)),
   ("created", .num r.created),
   ("model", .str r.model),
   ("service_tier", encodeOpt ServiceTierResponse.serialize r.service_tier),
   ("system_fingerprint", encodeOpt Json.str r.system_fingerprint),
   ("object", .str r.object),
   ("usage", encodeOpt CompletionUsage.serialize r.usage)]

end AsyncOpenai

namespace Ext

/-- Modelled from the spec: the alias crate::types::content_filtering::
ContentFilterResults of the extension crate is not under src/ (only the use
declaration in src/src/types/chat.rs names it).  Per the spec, the per-choice
extension value is the filtering-outcome union over the per-choice report
shape, which is ContentFilteringResults of ChoiceResults (both under
src/). -/
abbrev ContentFilterResults := AsyncOpenai.ContentFilteringResults AsyncOpenai.ChoiceResults

/-- Modelled from the spec: crate::types::content_filtering::
PromptFilterResults of the extension crate is not under src/.  The spec
describes an optional repeated sequence of prompt-level filtering results
tied to the input prompts, each carrying the filtering-outcome union over
the prompt-level report shape (PromptResults, under src/); modelled as a
prompt index plus that outcome. -/
structure PromptFilterResults where
  prompt_index : Nat
  content_filter_results : AsyncOpenai.ContentFilteringResults AsyncOpenai.PromptResults
deriving DecidableEq

/-- Modelled from the spec: derived-style map deserialization of the
prompt-level filtering record (duplicate keys rejected, unknown keys
ignored, both fields required). -/
def PromptFilterResults.loopD :
    List (String × Json) → Option Nat →
    Option (AsyncOpenai.ContentFilteringResults AsyncOpenai.PromptResults) →
    Except DErr PromptFilterResults
  | [], index?, cfr? =>
      match index? with
      | none => .error (.missingField "prompt_index")
      | some index =>
        match cfr? with
        | none => .error (.missingField "content_filter_results")
        | some cfr => .ok { prompt_index := index, content_filter_results := cfr }
  | (k, v) :: rest, index?, cfr? =>
      if k = "prompt_index" then
        match index? with
        | some _ => .error (.duplicateField "prompt_index")
        | none => do
            let x ← decodeU32 v
            PromptFilterResults.loopD rest (some x) cfr?
      else if k = "content_filter_results" then
        match cfr? with
        | some _ => .error (.duplicateField "content_filter_results")
        | none => do
            let x ← AsyncOpenai.ContentFilteringResults.deserialize
                      AsyncOpenai.PromptResults.deserialize v
            PromptFilterResults.loopD rest index? (some x)
      else PromptFilterResults.loopD rest index? cfr?

def PromptFilterResults.deserialize : Json → Except DErr PromptFilterResults
  | .obj entries => PromptFilterResults.loopD entries none none
  | _ => .error (.invalidType "struct PromptFilterResults")

/-- Modelled from the spec: serialization of the prompt-level filtering
record, one entry per field. -/
def PromptFilterResults.serialize (p : PromptFilterResults) : Json :=
  .obj [("prompt_index", .num p.prompt_index),
        ("content_filter_results",
         AsyncOpenai.ContentFilteringResults.serialize
           AsyncOpenai.PromptResults.serialize p.content_filter_results)]

/-- src/src/types/chat.rs ChatChoice: the extended choice.  Derived
Deserialize/Serialize with content_filter_results as the only named field
and the vanilla choice flattened. -/
structure ChatChoice where
  content_filter_results : Option ContentFilterResults
  vanilla : AsyncOpenai.ChatChoice
deriving DecidableEq

/-- Derived loop for the extended choice: the named key
content_filter_results is consumed directly (with a duplicate check, and
serde Option null handling); every other entry is buffered in order and
deserialized as the flattened vanilla ChatChoice after the walk. -/
def ChatChoice.loopD :
    List (String × Json) → Option (Option ContentFilterResults) →
    List (String × Json) → Except DErr ChatChoice
  | [], cfr?, buf =>
      match AsyncOpenai.ChatChoice.deserialize (.obj buf) with
      | .error e => .error e
      | .ok vanilla => .ok { content_filter_results := cfr?.getD none, vanilla := vanilla }
  | (k, v) :: rest, cfr?, buf =>
      if k = "content_filter_results" then
        match cfr? with
        | some _ => .error (.duplicateField "content_filter_results")
        | none =>
          match decodeOpt
                  (AsyncOpenai.ContentFilteringResults.deserialize
                    AsyncOpenai.ChoiceResults.deserialize) v with
          | .error e => .error e
          | .ok x => ChatChoice.loopD rest (some x) buf
      else ChatChoice.loopD rest cfr? (buf ++ [(k, v)])

def ChatChoice.deserialize : Json → Except DErr ChatChoice
  | .obj entries => ChatChoice.loopD entries none []
  | _ => .error (.invalidType "struct ChatChoice")

/-- Derived Serialize for the extended choice: the named field first, then
the flattened vanilla entries, all in one object. -/
def ChatChoice.serialize (c : ChatChoice) : Json :=
  .obj (("content_filter_results",
         encodeOpt (AsyncOpenai.ContentFilteringResults.serialize
                     AsyncOpenai.ChoiceResults.serialize) c.content_filter_results)
        :: c.vanilla.serializeEntries)

/-- src/src/types/chat.rs CreateChatCompletionResponse: the merged record.
Its own choices list (extended choices) plus prompt_filter_results, with
the vanilla base record flattened. -/
structure CreateChatCompletionResponse where
  choices : List ChatChoice
  prompt_filter_results : Option (List PromptFilterResults)
  vanilla : AsyncOpenai.CreateChatCompletionResponse
deriving DecidableEq

/-- The Field identifier enum of the hand-written Deserialize impl
(src/src/types/chat.rs lines 20-32), with rename_all = "snake_case" wire
names.  It has no catch-all variant. -/
inductive Field where
  | id
  | choices
  | created
  | model
  | serviceTier
  | systemFingerprint
  | object
  | usage
  | promptFilterResults
deriving DecidableEq

/-- Wire name of each Field variant under rename_all = "snake_case". -/
def fieldName : Field → String
  | .id => "id"
  | .choices => "choices"
  | .created => "created"
  | .model => "model"
  | .serviceTier => "service_tier"
  | .systemFingerprint => "system_fingerprint"
  | .object => "object"
  | .usage => "usage"
  | .promptFilterResults => "prompt_filter_results"

/-- Derived Deserialize of the Field enum applied to a map key: one of the
nine recognized names, or none (which the derived enum deserializer turns
into an unknown-variant error, since Field has no catch-all variant). -/
def classifyField (k : String) : Option Field :=
  if k = "id" then some .id
  else if k = "choices" then some .choices
  else if k = "created" then some .created
  else if k = "model" then some .model
  else if k = "service_tier" then some .serviceTier
  else if k = "system_fingerprint" then some .systemFingerprint
  else if k = "object" then some .object
  else if k = "usage" then some .usage
  else if k = "prompt_filter_results" then some .promptFilterResults
  else none

/-- The local accumulators of visit_map (src/src/types/chat.rs lines 47-55).
Each optional top-level field is accumulated at its final type: the source
assigns the accumulator itself to the struct field, so next_value runs at
the bare (non-Option) type for every field. -/
structure Acc where
  id : Option String
  choices : Option (List ChatChoice)
  created : Option Nat
  model : Option String
  service_tier : Option AsyncOpenai.ServiceTierResponse
  system_fingerprint : Option String
  object : Option String
  usage : Option AsyncOpenai.CompletionUsage
  prompt_filter_results : Option (List PromptFilterResults)

/-- The all-None initial accumulator state. -/
def Acc.init : Acc :=
  { id := none, choices := none, created := none, model := none,
    service_tier := none, system_fingerprint := none, object := none,
    usage := none, prompt_filter_results := none }

/-- Whether the accumulator for a field has been set (the is_some duplicate
guard of each visit_map arm). -/
def Acc.has (a : Acc) : Field → Bool
  | .id => a.id.isSome
  | .choices => a.choices.isSome
  | .created => a.created.isSome
  | .model => a.model.isSome
  | .serviceTier => a.service_tier.isSome
  | .systemFingerprint => a.system_fingerprint.isSome
  | .object => a.object.isSome
  | .usage => a.usage.isSome
  | .promptFilterResults => a.prompt_filter_results.isSome

/-- The next_value call of one visit_map arm: decode the value at the
field's accumulator type and store it.  Optional top-level fields decode at
their bare type (no Option wrapper), so an explicit null is a type error
here. -/
def stepField (f : Field) (v : Json) (acc : Acc) : Except DErr Acc :=
  match f with
  | .id =>
      match decodeString v with
      | .error e => .error e
      | .ok x => .ok { acc with id := some x }
  | .choices =>
      match decodeList ChatChoice.deserialize v with
      | .error e => .error e
      | .ok x => .ok { acc with choices := some x }
  | .created =>
      match decodeU32 v with
      | .error e => .error e
      | .ok x => .ok { acc with created := some x }
  | .model =>
      match decodeString v with
      | .error e => .error e
      | .ok x => .ok { acc with model := some x }
  | .serviceTier =>
      match AsyncOpenai.ServiceTierResponse.deserialize v with
      | .error e => .error e
      | .ok x => .ok { acc with service_tier := some x }
  | .systemFingerprint =>
      match decodeString v with
      | .error e => .error e
      | .ok x => .ok { acc with system_fingerprint := some x }
  | .object =>
      match decodeString v with
      | .error e => .error e
      | .ok x => .ok { acc with object := some x }
  | .usage =>
      match AsyncOpenai.CompletionUsage.deserialize v with
      | .error e => .error e
      | .ok x => .ok { acc with usage := some x }
  | .promptFilterResults =>
      match decodeList PromptFilterResults.deserialize v with
      | .error e => .error e
      | .ok x => .ok { acc with prompt_filter_results := some x }

/-- The while-let key loop of visit_map (src/src/types/chat.rs lines
56-114): classify each key through the Field enum (unknown keys are an
unknown-variant error), reject a second occurrence of a seen field as a
duplicate-field error, otherwise decode the value into the accumulator. -/
def visitLoop : List (String × Json) → Acc → Except DErr Acc
  | [], acc => .ok acc
  | (k, v) :: rest, acc =>
    match classifyField k with
    | none => .error (.unknownVariant k)
    | some f =>
      if acc.has f then .error (.duplicateField (fieldName f))
      else
        match stepField f v acc with
        | .error e => .error e
        | .ok acc2 => visitLoop rest acc2

/-- The required-field checks and record construction after the loop
(src/src/types/chat.rs lines 115-133): id, choices, created, model, object
are required in that order; the vanilla record's choices are the projection
of the extended choices. -/
def finishResponse (acc : Acc) : Except DErr CreateChatCompletionResponse :=
  match acc.id with
  | none => .error (.missingField "id")
  | some id =>
    match acc.choices with
    | none => .error (.missingField "choices")
    | some choices =>
      match acc.created with
      | none => .error (.missingField "created")
      | some created =>
        match acc.model with
        | none => .error (.missingField "model")
        | some model =>
          match acc.object with
          | none => .error (.missingField "object")
          | some object =>
              .ok { choices := choices,
                    prompt_filter_results := acc.prompt_filter_results,
                    vanilla := { id := id,
                                 choices := choices.map ChatChoice.vanilla,
                                 created := created, model := model,
                                 service_tier := acc.service_tier,
                                 system_fingerprint := acc.system_fingerprint,
                                 object := object, usage := acc.usage } }

/-- The hand-written Deserialize impl of the extended
CreateChatCompletionResponse: walk the top-level object once through the
Field catalog, then run the required-field checks. -/
def CreateChatCompletionResponse.deserialize : Json → Except DErr CreateChatCompletionResponse
  | .obj entries =>
      match visitLoop entries Acc.init with
      | .error e => .error e
      | .ok acc => finishResponse acc
  | _ => .error (.invalidType "struct CreateChatCompletionResponse")

/-- The derived Serialize of the extended response: its own fields in
declaration order (choices, prompt_filter_results), then the flattened
vanilla entries, all in one object. -/
def CreateChatCompletionResponse.serialize (r : CreateChatCompletionResponse) : Json :=
  .obj ([("choices", .arr (r.choices.map ChatChoice.serialize)),
         ("prompt_filter_results",
          encodeOpt (fun l => Json.arr (l.map PromptFilterResults.serialize))
            r.prompt_filter_results)]
        ++ r.vanilla.serializeEntries)

end Ext

namespace AsyncOpenai

/-- async_openai::types::Stop. -/
inductive Stop where
  | String (s : String)
  | StringArray (l : List String)

/-- async_openai::types::ImageDetail. -/
inductive ImageDetail where
  | Auto
  | Low
  | High

/-- async_openai::types::ImageUrl. -/
structure ImageUrl where
  url : String
  detail : Option ImageDetail

/-- async_openai::types::ChatCompletionRequestMessageContentPartText. -/
structure ChatCompletionRequestMessageContentPartText where
  text : String

/-- async_openai::types::ChatCompletionRequestMessageContentPartRefusal. -/
structure ChatCompletionRequestMessageContentPartRefusal where
  refusal : String

/-- async_openai::types::ChatCompletionRequestMessageContentPartImage. -/
structure ChatCompletionRequestMessageContentPartImage where
  image_url : ImageUrl

/-- async_openai::types::ChatCompletionRequestUserMessageContentPart. -/
inductive ChatCompletionRequestUserMessageContentPart where
  | Text (t : ChatCompletionRequestMessageContentPartText)
  | ImageUrl (i : ChatCompletionRequestMessageContentPartImage)

/-- async_openai::types::ChatCompletionRequestSystemMessageContentPart. -/
inductive ChatCompletionRequestSystemMessageContentPart where
  | Text (t : ChatCompletionRequestMessageContentPartText)

/-- async_openai::types::ChatCompletionRequestAssistantMessageContentPart. -/
inductive ChatCompletionRequestAssistantMessageContentPart where
  | Text (t : ChatCompletionRequestMessageContentPartText)
  | Refusal (r : ChatCompletionRequestMessageContentPartRefusal)

/-- async_openai::types::ChatCompletionRequestToolMessageContentPart. -/
inductive ChatCompletionRequestToolMessageContentPart where
  | Text (t : ChatCompletionRequestMessageContentPartText)

/-- async_openai::types::ChatCompletionRequestSystemMessageContent. -/
inductive ChatCompletionRequestSystemMessageContent where
  | Text (s : String)
  | Array (l : List ChatCompletionRequestSystemMessageContentPart)

/-- async_openai::types::ChatCompletionRequestUserMessageContent. -/
inductive ChatCompletionRequestUserMessageContent where
  | Text (s : String)
  | Array (l : List ChatCompletionRequestUserMessageContentPart)

/-- async_openai::types::ChatCompletionRequestAssistantMessageContent. -/
inductive ChatCompletionRequestAssistantMessageContent where
  | Text (s : String)
  | Array (l : List ChatCompletionRequestAssistantMessageContentPart)

/-- async_openai::types::ChatCompletionRequestToolMessageContent. -/
inductive ChatCompletionRequestToolMessageContent where
  | Text (s : String)
  | Array (l : List ChatCompletionRequestToolMessageContentPart)

/-- async_openai::types::ChatCompletionRequestSystemMessage. -/
structure ChatCompletionRequestSystemMessage where
  content : ChatCompletionRequestSystemMessageContent
  name : Option String

/-- async_openai::types::ChatCompletionRequestUserMessage. -/
structure ChatCompletionRequestUserMessage where
  content : ChatCompletionRequestUserMessageContent
  name : Option String

/-- async_openai::types::ChatCompletionRequestAssistantMessage. -/
structure ChatCompletionRequestAssistantMessage where
  content : Option ChatCompletionRequestAssistantMessageContent
  refusal : Option String
  name : Option String
  tool_calls : Option (List ChatCompletionMessageToolCall)
  function_call : Option FunctionCall

/-- async_openai::types::ChatCompletionRequestToolMessage. -/
structure ChatCompletionRequestToolMessage where
  content : ChatCompletionRequestToolMessageContent
  tool_call_id : String

/-- async_openai::types::ChatCompletionRequestFunctionMessage. -/
structure ChatCompletionRequestFunctionMessage where
  content : Option String
  name : String

/-- async_openai::types::ChatCompletionRequestMessage. -/
inductive ChatCompletionRequestMessage where
  | System (m : ChatCompletionRequestSystemMessage)
  | User (m : ChatCompletionRequestUserMessage)
  | Assistant (m : ChatCompletionRequestAssistantMessage)
  | Tool (m : ChatCompletionRequestToolMessage)
  | Function (m : ChatCompletionRequestFunctionMessage)

/-- async_openai::types::ChatCompletionFunctionCall. -/
inductive ChatCompletionFunctionCall where
  | None
  | Auto
  | Function (name : String)

/-- async_openai::types::ChatCompletionFunctions (deprecated request-side
function description; parameters is a raw JSON schema value). -/
structure ChatCompletionFunctions where
  name : String
  description : Option String
  parameters : Json

/-- async_openai::types::FunctionObject. -/
structure FunctionObject where
  name : String
  description : Option String
  parameters : Option Json
  strict : Option Bool

/-- async_openai::types::ResponseFormatJsonSchema. -/
structure ResponseFormatJsonSchema where
  description : Option String
  name : String
  schema : Option Json
  strict : Option Bool

/-- async_openai::types::ResponseFormat. -/
inductive ResponseFormat where
  | Text
  | JsonObject
  | JsonSchema (json_schema : ResponseFormatJsonSchema)

/-- async_openai::types::ChatCompletionTool. -/
structure ChatCompletionTool where
  type : ChatCompletionToolType
  function : FunctionObject

/-- async_openai::types::FunctionName. -/
structure FunctionName where
  name : String

/-- async_openai::types::ChatCompletionNamedToolChoice. -/
structure ChatCompletionNamedToolChoice where
  type : ChatCompletionToolType
  function : FunctionName

/-- async_openai::types::ChatCompletionToolChoiceOption. -/
inductive ChatCompletionToolChoiceOption where
  | None
  | Auto
  | Required
  | Named (c : ChatCompletionNamedToolChoice)

/-- async_openai::types::ServiceTier (request side). -/
inductive ServiceTier where
  | Auto
  | Default

/-- async_openai::types::ChatCompletionStreamOptions. -/
structure ChatCompletionStreamOptions where
  include_usage : Bool

/-- async_openai::types::CreateChatCompletionRequest.  Float-typed tuning
knobs (f32) are modelled as integers and the logit_bias map as an
association list; none of them is inspected by any embedded logic. -/
structure CreateChatCompletionRequest where
  messages : List ChatCompletionRequestMessage
  model : String
  frequency_penalty : Option Int
  logit_bias : Option (List (String × Json))
  logprobs : Option Bool
  top_logprobs : Option Nat
  max_tokens : Option Nat
  n : Option Nat
  presence_penalty : Option Int
  response_format : Option ResponseFormat
  seed : Option Int
  service_tier : Option ServiceTier
  stop : Option Stop
  stream : Option Bool
  stream_options : Option ChatCompletionStreamOptions
  temperature : Option Int
  top_p : Option Int
  tools : Option (List ChatCompletionTool)
  tool_choice : Option ChatCompletionToolChoiceOption
  parallel_tool_calls : Option Bool
  user : Option String
  function_call : Option ChatCompletionFunctionCall
  functions : Option (List ChatCompletionFunctions)

end AsyncOpenai

namespace Ext

/-- Observable outcome of Chat::create (src/src/chat.rs lines 26-36): either
the OpenAIError::InvalidArgument early return, or the delegated POST of the
unchanged request to the given path.  Transport execution (the awaited HTTP
call) is outside the embedding; the outcome records exactly what the
function decides. -/
inductive ChatCreateOutcome where
  | invalidArgument (message : String)
  | post (path : String) (request : AsyncOpenai.CreateChatCompletionRequest)

/-- Chat::create: reject a request whose stream flag is set to true with
InvalidArgument, otherwise POST the unchanged request to
"/chat/completions". -/
def Chat.create (request : AsyncOpenai.CreateChatCompletionRequest) : ChatCreateOutcome :=
  if request.stream.isSome && request.stream.getD false then
    .invalidArgument "When stream is true, use Chat::create_stream"
  else
    .post "/chat/completions" request

end Ext

namespace Ext

/-- Whether a value decodes at the accumulator type of the given top-level
field (the success predicate of the corresponding next_value call). -/
def fieldDecodeOk (f : Field) (v : Json) : Bool :=
  match f with
  | .id => isOkD (decodeString v)
  | .choices => isOkD (decodeList ChatChoice.deserialize v)
  | .created => isOkD (decodeU32 v)
  | .model => isOkD (decodeString v)
  | .serviceTier => isOkD (AsyncOpenai.ServiceTierResponse.deserialize v)
  | .systemFingerprint => isOkD (decodeString v)
  | .object => isOkD (decodeString v)
  | .usage => isOkD (AsyncOpenai.CompletionUsage.deserialize v)
  | .promptFilterResults => isOkD (decodeList PromptFilterResults.deserialize v)

/-- A top-level entry whose key is in the Field catalog and whose value
decodes at that field's type. -/
def recognizedOk (kv : String × Json) : Bool :=
  match classifyField kv.1 with
  | some f => fieldDecodeOk f kv.2
  | none => false

theorem classifyField_eq_name {k : String} {f : Field}
    (h : classifyField k = some f) : k = fieldName f := by
  unfold classifyField at h
  split_ifs at h with h1 h2 h3 h4 h5 h6 h7 h8 h9 <;>
    (injection h with hf <;> (subst hf; simp_all [fieldName]))

theorem classifyField_fieldName (f : Field) : classifyField (fieldName f) = some f := by
  cases f <;> rfl

theorem stepField_ok_has {f : Field} {v : Json} {acc acc2 : Acc}
    (h : stepField f v acc = .ok acc2) (g : Field) :
    acc2.has g = if g = f then true else acc.has g := by
  cases f <;>
    (simp only [stepField] at h
     split at h
     · simp at h
     · injection h with h2
       subst h2
       cases g <;> simp [Acc.has])

theorem stepField_total {f : Field} {v : Json} (acc : Acc)
    (hok : fieldDecodeOk f v = true) :
    ∃ acc2, stepField f v acc = .ok acc2 := by
  cases f <;>
    (simp only [fieldDecodeOk] at hok
     simp only [stepField]
     split
     · simp_all [isOkD]
     · exact ⟨_, rfl⟩)

theorem stepField_choices_const {f : Field} {v : Json} {acc acc2 : Acc}
    (h : stepField f v acc = .ok acc2) (hne : f ≠ Field.choices) :
    acc2.choices = acc.choices := by
  cases f <;>
    first
      | exact absurd rfl hne
      | (simp only [stepField] at h
         split at h
         · simp at h
         · injection h with h2
           subst h2
           rfl)

theorem stepField_choices_set {v : Json} {acc acc2 : Acc}
    (h : stepField Field.choices v acc = .ok acc2) :
    ∃ xs, decodeList ChatChoice.deserialize v = .ok xs ∧ acc2.choices = some xs := by
  simp only [stepField] at h
  split at h
  · simp at h
  · injection h with h2
    subst h2
    exact ⟨_, by assumption, rfl⟩

theorem stepField_pfr_const {f : Field} {v : Json} {acc acc2 : Acc}
    (h : stepField f v acc = .ok acc2) (hne : f ≠ Field.promptFilterResults) :
    acc2.prompt_filter_results = acc.prompt_filter_results := by
  cases f <;>
    first
      | exact absurd rfl hne
      | (simp only [stepField] at h
         split at h
         · simp at h
         · injection h with h2
           subst h2
           rfl)

theorem visitLoop_append (l1 l2 : List (String × Json)) (acc : Acc) :
    visitLoop (l1 ++ l2) acc =
      match visitLoop l1 acc with
      | .ok acc2 => visitLoop l2 acc2
      | .error e => .error e := by
  induction l1 generalizing acc with
  | nil => simp [visitLoop]
  | cons kv rest ih =>
    obtain ⟨k, v⟩ := kv
    simp only [List.cons_append, visitLoop]
    cases classifyField k with
    | none => rfl
    | some f =>
      simp only []
      by_cases hh : acc.has f = true
      · simp [hh]
      · simp only [hh]
        simp only [Bool.false_eq_true, if_false]
        cases stepField f v acc with
        | error e => rfl
        | ok acc2 => exact ih acc2

theorem visitLoop_total :
    ∀ (l : List (String × Json)) (acc : Acc),
      (∀ kv ∈ l, recognizedOk kv = true) →
      (l.map Prod.fst).Nodup →
      (∀ kv ∈ l, ∀ f, classifyField kv.1 = some f → acc.has f = false) →
      ∃ acc2, visitLoop l acc = .ok acc2 ∧
        ∀ g, (acc2.has g = true ↔ (acc.has g = true ∨ fieldName g ∈ l.map Prod.fst)) := by
  intro l
  induction l with
  | nil =>
    intro acc _ _ _
    exact ⟨acc, rfl, by simp⟩
  | cons kv rest ih =>
    intro acc hrec hnd hfresh
    obtain ⟨k, v⟩ := kv
    have hr := hrec (k, v) (by simp)
    cases hcf : classifyField k with
    | none => simp [recognizedOk, hcf] at hr
    | some f =>
      have hfr : acc.has f = false := hfresh (k, v) (by simp) f hcf
      have hok : fieldDecodeOk f v = true := by
        simpa [recognizedOk, hcf] using hr
      obtain ⟨accN, hstep⟩ := stepField_total acc hok
      have hhasN := stepField_ok_has hstep
      have hk : k = fieldName f := classifyField_eq_name hcf
      have hnd2 : (rest.map Prod.fst).Nodup := (List.nodup_cons.mp hnd).2
      have hknr : k ∉ rest.map Prod.fst := (List.nodup_cons.mp hnd).1
      have hfresh2 : ∀ kv ∈ rest, ∀ g, classifyField kv.1 = some g → accN.has g = false := by
        intro kv2 hm g hcg
        rw [hhasN g]
        by_cases hgf : g = f
        · subst hgf
          exfalso
          apply hknr
          have hk2 : kv2.1 = fieldName g := classifyField_eq_name hcg
          rw [hk, ← hk2]
          exact List.mem_map_of_mem Prod.fst hm
        · simp only [hgf, if_false]
          exact hfresh kv2 (List.mem_cons_of_mem _ hm) g hcg
      obtain ⟨acc2, hloop, hhas2⟩ := ih accN (fun kv2 hm => hrec kv2 (List.mem_cons_of_mem _ hm))
        hnd2 hfresh2
      refine ⟨acc2, ?_, ?_⟩
      · simp only [visitLoop, hcf, hfr]
        simp only [Bool.false_eq_true, if_false, hstep]
        exact hloop
      · intro g
        rw [hhas2 g, hhasN g]
        by_cases hgf : g = f
        · subst hgf
          simp [hk]
        · have hgk : fieldName g ≠ k := by
            intro he
            apply hgf
            have := classifyField_fieldName g
            rw [he, hcf] at this
            injection this with h2
            exact h2.symm
          simp only [hgf, if_false, List.map_cons, List.mem_cons]
          constructor
          · rintro (hl | hl)
            · exact Or.inl hl
            · exact Or.inr (Or.inr hl)
          · rintro (hl | hl | hl)
            · exact Or.inl hl
            · exact absurd hl hgk
            · exact Or.inr hl

theorem visitLoop_choices_src :
    ∀ (l : List (String × Json)) (acc acc2 : Acc),
      visitLoop l acc = .ok acc2 → ∀ xs, acc2.choices = some xs →
      acc.choices = some xs ∨
        ∃ v, ("choices", v) ∈ l ∧ decodeList ChatChoice.deserialize v = .ok xs := by
  intro l
  induction l with
  | nil =>
    intro acc acc2 h xs hxs
    simp only [visitLoop] at h
    injection h with h2
    subst h2
    exact Or.inl hxs
  | cons kv rest ih =>
    intro acc acc2 h xs hxs
    obtain ⟨k, v⟩ := kv
    simp only [visitLoop] at h
    cases hcf : classifyField k with
    | none => simp [hcf] at h
    | some f =>
      rw [hcf] at h
      simp only [] at h
      by_cases hh : acc.has f = true
      · simp [hh] at h
      · simp only [hh, Bool.false_eq_true, if_false] at h
        cases hstep : stepField f v acc with
        | error e => rw [hstep] at h; simp at h
        | ok accN =>
          rw [hstep] at h
          rcases ih accN acc2 h xs hxs with hcase | ⟨v2, hm, hd⟩
          · by_cases hgf : f = Field.choices
            · subst hgf
              obtain ⟨ys, hdec, hsetN⟩ := stepField_choices_set hstep
              rw [hsetN] at hcase
              injection hcase with h2
              subst h2
              refine Or.inr ⟨v, ?_, hdec⟩
              have hk : k = "choices" := classifyField_eq_name hcf
              subst hk
              exact List.mem_cons_self _ _
            · rw [stepField_choices_const hstep hgf] at hcase
              exact Or.inl hcase
          · exact Or.inr ⟨v2, List.mem_cons_of_mem _ hm, hd⟩

theorem visitLoop_pfr_const :
    ∀ (l : List (String × Json)) (acc acc2 : Acc),
      "prompt_filter_results" ∉ l.map Prod.fst →
      visitLoop l acc = .ok acc2 →
      acc2.prompt_filter_results = acc.prompt_filter_results := by
  intro l
  induction l with
  | nil =>
    intro acc acc2 _ h
    simp only [visitLoop] at h
    injection h with h2
    subst h2
    rfl
  | cons kv rest ih =>
    intro acc acc2 hnm h
    obtain ⟨k, v⟩ := kv
    simp only [visitLoop] at h
    cases hcf : classifyField k with
    | none => simp [hcf] at h
    | some f =>
      rw [hcf] at h
      simp only [] at h
      by_cases hh : acc.has f = true
      · simp [hh] at h
      · simp only [hh, Bool.false_eq_true, if_false] at h
        cases hstep : stepField f v acc with
        | error e => rw [hstep] at h; simp at h
        | ok accN =>
          rw [hstep] at h
          have hne : f ≠ Field.promptFilterResults := by
            intro he
            subst he
            apply hnm
            have hk : k = "prompt_filter_results" := classifyField_eq_name hcf
            rw [← hk]
            exact List.mem_cons_self _ _
          have h1 := ih accN acc2 (fun hm => hnm (List.mem_cons_of_mem _ hm)) h
          rw [h1, stepField_pfr_const hstep hne]

end Ext

theorem decodeListAux_mem {α : Type _} {f : Json → Except DErr α} :
    ∀ {l : List Json} {xs : List α}, decodeListAux f l = .ok xs →
      ∀ x ∈ xs, ∃ j ∈ l, f j = .ok x := by
  intro l
  induction l with
  | nil =>
    intro xs h x hx
    simp only [decodeListAux] at h
    injection h with h2
    subst h2
    simp at hx
  | cons j rest ih =>
    intro xs h x hx
    simp only [decodeListAux] at h
    cases hj : f j with
    | error e => rw [hj] at h; simp at h
    | ok y =>
      rw [hj] at h
      simp only [] at h
      cases hrest : decodeListAux f rest with
      | error e => rw [hrest] at h; simp at h
      | ok ys =>
        rw [hrest] at h
        injection h with h2
        subst h2
        rcases List.mem_cons.mp hx with heq | hmem
        · subst heq
          exact ⟨j, List.mem_cons_self _ _, hj⟩
        · obtain ⟨j2, hj2, hfj2⟩ := ih hrest x hmem
          exact ⟨j2, List.mem_cons_of_mem _ hj2, hfj2⟩

theorem decodeList_ok_arr {α : Type _} {f : Json → Except DErr α} {v : Json} {xs : List α}
    (h : decodeList f v = .ok xs) :
    ∃ items, v = .arr items ∧ decodeListAux f items = .ok xs := by
  cases v <;> simp only [decodeList] at h <;>
    first
      | (injection h)
      | exact ⟨_, rfl, h⟩

theorem decodeList_err_head {α : Type _} {f : Json → Except DErr α} {j : Json}
    {rest : List Json} {e : DErr} (h : f j = .error e) :
    decodeList f (.arr (j :: rest)) = .error e := by
  simp [decodeList, decodeListAux, h]

namespace Ext

theorem extLoop_cfr_absent :
    ∀ (entries : List (String × Json)) (cfrAcc : Option (Option ContentFilterResults))
      (buf : List (String × Json)) (c : ChatChoice),
      "content_filter_results" ∉ entries.map Prod.fst →
      ChatChoice.loopD entries cfrAcc buf = .ok c →
      c.content_filter_results = cfrAcc.getD none := by
  intro entries
  induction entries with
  | nil =>
    intro cfrAcc buf c _ h
    simp only [ChatChoice.loopD] at h
    cases hv : AsyncOpenai.ChatChoice.deserialize (.obj buf) with
    | error e => rw [hv] at h; simp at h
    | ok vanilla =>
      rw [hv] at h
      injection h with h2
      subst h2
      rfl
  | cons kv rest ih =>
    intro cfrAcc buf c hnm h
    obtain ⟨k, v⟩ := kv
    have hne : k ≠ "content_filter_results" := by
      intro he
      exact hnm (by rw [← he]; exact List.mem_cons_self _ _)
    simp only [ChatChoice.loopD, hne, if_false] at h
    exact ih cfrAcc (buf ++ [(k, v)]) c (fun hm => hnm (List.mem_cons_of_mem _ hm)) h

theorem extLoop_seen_dup :
    ∀ (entries : List (String × Json)) (x : Option ContentFilterResults)
      (buf : List (String × Json)),
      "content_filter_results" ∈ entries.map Prod.fst →
      ∃ e, ChatChoice.loopD entries (some x) buf = .error e := by
  intro entries
  induction entries with
  | nil =>
    intro x buf hm
    simp at hm
  | cons kv rest ih =>
    intro x buf hm
    obtain ⟨k, v⟩ := kv
    by_cases hk : k = "content_filter_results"
    · subst hk
      exact ⟨.duplicateField "content_filter_results", by rw [ChatChoice.loopD, if_pos rfl]⟩
    · have hm2 : "content_filter_results" ∈ rest.map Prod.fst := by
        rcases List.mem_cons.mp hm with he | hmem
        · exact absurd he.symm hk
        · exact hmem
      obtain ⟨e, h1⟩ := ih x (buf ++ [(k, v)]) hm2
      exact ⟨e, by rw [ChatChoice.loopD, if_neg hk]; exact h1⟩

/-- Decoding the serialization of an extended choice always fails: the
encoded object carries content_filter_results twice (the extension copy
first, then the flattened vanilla copy), and the derived visitor rejects
the second occurrence. -/
theorem extChoice_encode_err (c : ChatChoice) :
    ∃ e, ChatChoice.deserialize (ChatChoice.serialize c) = .error e := by
  show ∃ e, ChatChoice.loopD
      (("content_filter_results",
        encodeOpt (AsyncOpenai.ContentFilteringResults.serialize AsyncOpenai.ChoiceResults.serialize)
          c.content_filter_results) :: c.vanilla.serializeEntries) none [] = .error e
  rw [ChatChoice.loopD, if_pos rfl]
  cases hd : decodeOpt
      (AsyncOpenai.ContentFilteringResults.deserialize AsyncOpenai.ChoiceResults.deserialize)
      (encodeOpt (AsyncOpenai.ContentFilteringResults.serialize AsyncOpenai.ChoiceResults.serialize)
        c.content_filter_results) with
  | error e => exact ⟨e, rfl⟩
  | ok x =>
    apply extLoop_seen_dup
    simp [AsyncOpenai.ChatChoice.serializeEntries]

theorem finishResponse_ok_proj {acc : Acc} {r : CreateChatCompletionResponse}
    (h : finishResponse acc = .ok r) :
    acc.choices = some r.choices ∧
    r.vanilla.choices = r.choices.map ChatChoice.vanilla ∧
    r.prompt_filter_results = acc.prompt_filter_results := by
  unfold finishResponse at h
  cases hid : acc.id with
  | none => rw [hid] at h; simp at h
  | some id =>
    rw [hid] at h
    cases hch : acc.choices with
    | none => rw [hch] at h; simp at h
    | some choices =>
      rw [hch] at h
      cases hcr : acc.created with
      | none => rw [hcr] at h; simp at h
      | some created =>
        rw [hcr] at h
        cases hmo : acc.model with
        | none => rw [hmo] at h; simp at h
        | some model =>
          rw [hmo] at h
          cases hob : acc.object with
          | none => rw [hob] at h; simp at h
          | some object =>
            rw [hob] at h
            injection h with h2
            subst h2
            exact ⟨rfl, rfl, rfl⟩

theorem finishResponse_total {acc : Acc}
    (h1 : acc.id.isSome = true) (h2 : acc.choices.isSome = true)
    (h3 : acc.created.isSome = true) (h4 : acc.model.isSome = true)
    (h5 : acc.object.isSome = true) :
    isOkD (finishResponse acc) = true := by
  obtain ⟨x1, e1⟩ := Option.isSome_iff_exists.mp h1
  obtain ⟨x2, e2⟩ := Option.isSome_iff_exists.mp h2
  obtain ⟨x3, e3⟩ := Option.isSome_iff_exists.mp h3
  obtain ⟨x4, e4⟩ := Option.isSome_iff_exists.mp h4
  obtain ⟨x5, e5⟩ := Option.isSome_iff_exists.mp h5
  simp [finishResponse, e1, e2, e3, e4, e5, isOkD]

theorem deserialize_ok_elim {d : Json} {r : CreateChatCompletionResponse}
    (h : CreateChatCompletionResponse.deserialize d = .ok r) :
    ∃ entries acc, d = .obj entries ∧ visitLoop entries Acc.init = .ok acc ∧
      finishResponse acc = .ok r := by
  cases d <;> simp only [CreateChatCompletionResponse.deserialize] at h <;>
    try (injection h)
  case obj entries =>
    cases hv : visitLoop entries Acc.init with
    | error e => rw [hv] at h; simp at h
    | ok acc =>
      rw [hv] at h
      exact ⟨entries, acc, rfl, hv, h⟩

/-- For every successful decode, the vanilla record's choices are the
field-by-field projection of the extended choices (construction at
src/src/types/chat.rs line 125). -/
theorem deserialize_ok_vanilla_proj {d : Json} {r : CreateChatCompletionResponse}
    (h : CreateChatCompletionResponse.deserialize d = .ok r) :
    r.vanilla.choices = r.choices.map ChatChoice.vanilla := by
  obtain ⟨entries, acc, _, _, hfin⟩ := deserialize_ok_elim h
  exact (finishResponse_ok_proj hfin).2.1

theorem deserialize_obj_err {entries : List (String × Json)} {e : DErr}
    (h : visitLoop entries Acc.init = .error e) :
    CreateChatCompletionResponse.deserialize (.obj entries) = .error e := by
  simp [CreateChatCompletionResponse.deserialize, h]

theorem visitLoop_cons_dup {k : String} {v : Json} {rest : List (String × Json)}
    {acc : Acc} {f : Field} (hcf : classifyField k = some f) (hh : acc.has f = true) :
    visitLoop ((k, v) :: rest) acc = .error (.duplicateField (fieldName f)) := by
  rw [visitLoop, hcf]
  simp only [hh, if_true]

theorem visitLoop_cons_step_err {k : String} {v : Json} {rest : List (String × Json)}
    {acc : Acc} {f : Field} {e : DErr} (hcf : classifyField k = some f)
    (hh : acc.has f = false) (hstep : stepField f v acc = .error e) :
    visitLoop ((k, v) :: rest) acc = .error e := by
  rw [visitLoop, hcf]
  simp only [hh, Bool.false_eq_true, if_false, hstep]

theorem visitLoop_cons_step_ok {k : String} {v : Json} {rest : List (String × Json)}
    {acc acc2 : Acc} {f : Field} (hcf : classifyField k = some f)
    (hh : acc.has f = false) (hstep : stepField f v acc = .ok acc2) :
    visitLoop ((k, v) :: rest) acc = visitLoop rest acc2 := by
  rw [visitLoop, hcf]
  simp only [hh, Bool.false_eq_true, if_false, hstep]

theorem stepField_choices_err {v : Json} {acc : Acc} {e : DErr}
    (h : decodeList ChatChoice.deserialize v = .error e) :
    stepField Field.choices v acc = .error e := by
  simp [stepField, h]

theorem stepField_pfr_err {v : Json} {acc : Acc} {e : DErr}
    (h : decodeList PromptFilterResults.deserialize v = .error e) :
    stepField Field.promptFilterResults v acc = .error e := by
  simp [stepField, h]

/-- Decoding the serialization of a merged record always fails.  The derived
Serialize emits the choices key twice (the extension copy and the flattened
vanilla copy), each choice object carries content_filter_results twice, and
an absent prompt_filter_results is emitted as null, which the bare
Vec-typed next_value rejects; one of these is always hit first. -/
theorem serialize_deserialize_err (r : CreateChatCompletionResponse) :
    ∃ e, CreateChatCompletionResponse.deserialize
      (CreateChatCompletionResponse.serialize r) = .error e := by
  have cfChoices : classifyField "choices" = some Field.choices := rfl
  have cfPfr : classifyField "prompt_filter_results" = some Field.promptFilterResults := rfl
  have cfId : classifyField "id" = some Field.id := rfl
  simp only [CreateChatCompletionResponse.serialize,
    AsyncOpenai.CreateChatCompletionResponse.serializeEntries,
    List.cons_append, List.nil_append]
  cases hc : r.choices with
  | cons c cs =>
    obtain ⟨e, hce⟩ := extChoice_encode_err c
    refine ⟨e, deserialize_obj_err ?_⟩
    rw [List.map_cons]
    exact visitLoop_cons_step_err cfChoices (by rfl) (stepField_choices_err (decodeList_err_head hce))
  | nil =>
    rw [List.map_nil]
    have h1 : stepField Field.choices (.arr []) Acc.init
        = .ok { Acc.init with choices := some [] } := rfl
    cases hp : r.prompt_filter_results with
    | none =>
      refine ⟨.invalidType "sequence", deserialize_obj_err ?_⟩
      rw [visitLoop_cons_step_ok cfChoices (by rfl) h1]
      simp only [encodeOpt]
      exact visitLoop_cons_step_err cfPfr (by rfl) (stepField_pfr_err rfl)
    | some l =>
      simp only [encodeOpt]
      cases hd : decodeList PromptFilterResults.deserialize
          (.arr (l.map PromptFilterResults.serialize)) with
      | error e2 =>
        refine ⟨e2, deserialize_obj_err ?_⟩
        rw [visitLoop_cons_step_ok cfChoices (by rfl) h1]
        exact visitLoop_cons_step_err cfPfr (by rfl) (stepField_pfr_err hd)
      | ok xs =>
        refine ⟨.duplicateField "choices", deserialize_obj_err ?_⟩
        rw [visitLoop_cons_step_ok cfChoices (by rfl) h1]
        have h2 : stepField Field.promptFilterResults
            (.arr (l.map PromptFilterResults.serialize))
            { Acc.init with choices := some [] }
            = .ok { Acc.init with choices := some [], prompt_filter_results := some xs } := by
          simp [stepField, hd]
        rw [visitLoop_cons_step_ok cfPfr (by rfl) h2]
        have h3 : stepField Field.id (.str r.vanilla.id)
            { Acc.init with choices := some [], prompt_filter_results := some xs }
            = .ok { Acc.init with choices := some [], prompt_filter_results := some xs, id := some r.vanilla.id } := rfl
        rw [visitLoop_cons_step_ok cfId (by rfl) h3]
        exact visitLoop_cons_dup cfChoices (by rfl)

end Ext

/-! Concrete fixtures used by the claim theorems, their witnesses and
counterexamples. -/

/-- A minimal assistant response message (role only on the wire). -/
def msgA : AsyncOpenai.ChatCompletionResponseMessage :=
  { content := none, refusal := none, tool_calls := none,
    role := .Assistant, function_call := none }

/-- A minimal valid top-level document: the five required fields, no
optional field, no extension field, empty choices. -/
def doc1entries : List (String × Json) :=
  [("id", .str "a"), ("choices", .arr []), ("created", .num 1),
   ("model", .str "m"), ("object", .str "o")]

def doc1 : Json := .obj doc1entries

/-- The merged record doc1 decodes to. -/
def r1 : Ext.CreateChatCompletionResponse :=
  { choices := [], prompt_filter_results := none,
    vanilla := { id := "a", choices := [], created := 1, model := "m",
                 service_tier := none, system_fingerprint := none,
                 object := "o", usage := none } }

/-- A merged record with one choice (no extension data), used to inspect the
key multiset of the serializer. -/
def r2 : Ext.CreateChatCompletionResponse :=
  { choices := [{ content_filter_results := none,
                  vanilla := { index := 0, message := msgA, finish_reason := none,
                               logprobs := none, content_filter_results := none } }],
    prompt_filter_results := none,
    vanilla := { id := "a",
                 choices := [{ index := 0, message := msgA, finish_reason := none,
                               logprobs := none, content_filter_results := none }],
                 created := 1, model := "m", service_tier := none,
                 system_fingerprint := none, object := "o", usage := none } }

/-- doc1 without the object field: exactly one required field missing. -/
def doc3entries : List (String × Json) :=
  [("id", .str "a"), ("choices", .arr []), ("created", .num 1), ("model", .str "m")]

/-- doc1 with an extra unrecognized top-level key appended. -/
def doc5 : Json := .obj (doc1entries ++ [("beta_flag", .bool true)])

/-- doc1 with system_fingerprint present as an explicit null. -/
def doc7 : Json := .obj (doc1entries ++ [("system_fingerprint", .null)])

/-- A document with two choices, of which only the first carries the
extension field content_filter_results (an empty report object). -/
def doc6 : Json := .obj
  [("id", .str "a"),
   ("choices", .arr
     [.obj [("index", .num 0), ("message", .obj [("role", .str "assistant")]),
            ("content_filter_results", .obj [])],
      .obj [("index", .num 1), ("message", .obj [("role", .str "assistant")])]]),
   ("created", .num 1), ("model", .str "m"), ("object", .str "o")]

/-- The all-absent per-choice filtering report. -/
def emptyChoiceResults : AsyncOpenai.ChoiceResults :=
  { results := { sexual := none, violence := none, hate := none,
                 self_harm := none, profanity := none },
    protected_material_text := none, protected_material_code := none }

/-- The merged record doc6 decodes to: extension data on the first choice
only. -/
def r6 : Ext.CreateChatCompletionResponse :=
  { choices :=
      [{ content_filter_results := some (.Ok emptyChoiceResults),
         vanilla := { index := 0, message := msgA, finish_reason := none,
                      logprobs := none, content_filter_results := none } },
       { content_filter_results := none,
         vanilla := { index := 1, message := msgA, finish_reason := none,
                      logprobs := none, content_filter_results := none } }],
    prompt_filter_results := none,
    vanilla := { id := "a",
                 choices := [{ index := 0, message := msgA, finish_reason := none,
                               logprobs := none, content_filter_results := none },
                             { index := 1, message := msgA, finish_reason := none,
                               logprobs := none, content_filter_results := none }],
                 created := 1, model := "m", service_tier := none,
                 system_fingerprint := none, object := "o", usage := none } }

/-- A zero-extension document with one choice. -/
def doc9 : Json := .obj
  [("id", .str "a"),
   ("choices", .arr [.obj [("index", .num 0), ("message", .obj [("role", .str "assistant")])]]),
   ("created", .num 1), ("model", .str "m"), ("object", .str "o")]

/-- The merged record doc9 decodes to. -/
def r9 : Ext.CreateChatCompletionResponse :=
  { choices := [{ content_filter_results := none,
                  vanilla := { index := 0, message := msgA, finish_reason := none,
                               logprobs := none, content_filter_results := none } }],
    prompt_filter_results := none,
    vanilla := { id := "a",
                 choices := [{ index := 0, message := msgA, finish_reason := none,
                               logprobs := none, content_filter_results := none }],
                 created := 1, model := "m", service_tier := none,
                 system_fingerprint := none, object := "o", usage := none } }

/-- A request with every optional knob unset. -/
def baseRequest : AsyncOpenai.CreateChatCompletionRequest :=
  { messages := [], model := "m", frequency_penalty := none, logit_bias := none,
    logprobs := none, top_logprobs := none, max_tokens := none, n := none,
    presence_penalty := none, response_format := none, seed := none,
    service_tier := none, stop := none, stream := none, stream_options := none,
    temperature := none, top_p := none, tools := none, tool_choice := none,
    parallel_tool_calls := none, user := none, function_call := none,
    functions := none }

/-- baseRequest with streaming requested. -/
def reqStreamT : AsyncOpenai.CreateChatCompletionRequest :=
  { baseRequest with stream := some true }

/-! Claim theorems. -/

/-- C1 (counterexample): the round-trip law fails on the code.  r1 is a
merged record built from valid components (it is itself the decode of a
valid document), yet decode of encode of r1 is an error, not r1: the
serializer emits the choices key twice and prompt_filter_results as null,
which the deserializer rejects. -/
theorem claim_c1_counterexample :
    Ext.CreateChatCompletionResponse.deserialize doc1 = .ok r1 ∧
    isOkD (Ext.CreateChatCompletionResponse.deserialize
      (Ext.CreateChatCompletionResponse.serialize r1)) = false ∧
    Ext.CreateChatCompletionResponse.deserialize
      (Ext.CreateChatCompletionResponse.serialize r1) ≠ .ok r1 :=
  ⟨rfl, rfl, fun h => nomatch h⟩

/-- C1 (amended): decode of encode never succeeds.  For every merged record
r, deserializing the serialization of r fails: the derived Serialize emits
base and extension copies of choices (and, per choice, of
content_filter_results) into the same object, and emits an absent
prompt_filter_results as null, which the bare Vec-typed accumulator
rejects; the hand-written visitor therefore always reports an error. -/
theorem claim_c1_amended (r : Ext.CreateChatCompletionResponse) :
    isOkD (Ext.CreateChatCompletionResponse.deserialize
      (Ext.CreateChatCompletionResponse.serialize r)) = false := by
  obtain ⟨e, he⟩ := Ext.serialize_deserialize_err r
  rw [he]
  rfl

/-- C2 (counterexample): encode of a merged record with one choice repeats
the field name choices twice at the top level, so it is not an object in
which every field name occurs exactly once per nesting level. -/
theorem claim_c2_counterexample :
    (jsonTopKeys (Ext.CreateChatCompletionResponse.serialize r2)).count "choices" = 2 ∧
    (jsonTopKeys (Ext.CreateChatCompletionResponse.serialize r2)).count "choices" ≠ 1 := by
  refine ⟨rfl, ?_⟩
  decide

/-- C2 (amended): encode produces one flat object with no wrapper keys, and
extension fields sit at the level they were read from (prompt_filter_results
at the top level, content_filter_results inside each choice object) — but
because the flattened vanilla record repeats them, the key choices occurs
exactly twice at the top level and content_filter_results exactly twice in
every encoded choice object, in the fixed order given here. -/
theorem claim_c2_amended :
    (∀ r : Ext.CreateChatCompletionResponse,
       jsonTopKeys (Ext.CreateChatCompletionResponse.serialize r) =
         ["choices", "prompt_filter_results", "id", "choices", "created", "model",
          "service_tier", "system_fingerprint", "object", "usage"]) ∧
    (∀ c : Ext.ChatChoice,
       jsonTopKeys (Ext.ChatChoice.serialize c) =
         ["content_filter_results", "index", "message", "finish_reason", "logprobs",
          "content_filter_results"]) :=
  ⟨fun _ => rfl, fun _ => rfl⟩

/-- C10: Chat::create returns the InvalidArgument error for every request
whose stream field is Some(true), and otherwise delegates the unchanged
request to a POST on "/chat/completions". -/
theorem claim_c10 (req : AsyncOpenai.CreateChatCompletionRequest) :
    (req.stream = some true →
       Ext.Chat.create req = .invalidArgument "When stream is true, use Chat::create_stream") ∧
    (req.stream ≠ some true →
       Ext.Chat.create req = .post "/chat/completions" req) := by
  constructor
  · intro h
    simp [Ext.Chat.create, h]
  · intro h
    cases hs : req.stream with
    | none => simp [Ext.Chat.create, hs]
    | some b =>
      cases b with
      | false => simp [Ext.Chat.create, hs]
      | true => exact absurd hs h

/-- C10 (witness): a streaming request is rejected with the literal message
and a non-streaming request is posted unchanged. -/
theorem claim_c10_witness :
    Ext.Chat.create reqStreamT = .invalidArgument "When stream is true, use Chat::create_stream" ∧
    Ext.Chat.create baseRequest = .post "/chat/completions" baseRequest :=
  ⟨(claim_c10 reqStreamT).1 rfl, (claim_c10 baseRequest).2 (fun h => nomatch h)⟩

namespace Ext

/-- The required top-level fields, in the order the post-walk checks run
(src/src/types/chat.rs lines 115-119). -/
def requiredFields : List Field := [.id, .choices, .created, .model, .object]

end Ext

/-- C3: for a top-level object whose keys are all recognized, unrepeated and
whose values decode at their field types, (a) if exactly one required field
among id, choices, created, model, object is absent, decode fails with the
missing-required-field error naming that field, and (b) if all five are
present, decode succeeds — in particular service_tier, system_fingerprint,
usage and prompt_filter_results may all be absent without error. -/
theorem claim_c3 (entries : List (String × Json))
    (hrec : ∀ kv ∈ entries, Ext.recognizedOk kv = true)
    (hnd : (entries.map Prod.fst).Nodup) :
    (∀ f ∈ Ext.requiredFields,
       Ext.fieldName f ∉ entries.map Prod.fst →
       (∀ g ∈ Ext.requiredFields, g ≠ f → Ext.fieldName g ∈ entries.map Prod.fst) →
       Ext.CreateChatCompletionResponse.deserialize (.obj entries)
         = .error (.missingField (Ext.fieldName f))) ∧
    ((∀ f ∈ Ext.requiredFields, Ext.fieldName f ∈ entries.map Prod.fst) →
       isOkD (Ext.CreateChatCompletionResponse.deserialize (.obj entries)) = true) := by
  obtain ⟨acc2, hloop, hhas⟩ := Ext.visitLoop_total entries Ext.Acc.init hrec hnd
    (fun kv hm f hcf => by cases f <;> rfl)
  have hrun : Ext.CreateChatCompletionResponse.deserialize (.obj entries)
      = Ext.finishResponse acc2 := by
    simp [Ext.CreateChatCompletionResponse.deserialize, hloop]
  have hpres : ∀ g : Ext.Field, Ext.fieldName g ∈ entries.map Prod.fst →
      Ext.Acc.has acc2 g = true :=
    fun g hm => (hhas g).mpr (Or.inr hm)
  have habs : ∀ g : Ext.Field, Ext.fieldName g ∉ entries.map Prod.fst →
      Ext.Acc.has acc2 g = false := by
    intro g hm
    cases hq : Ext.Acc.has acc2 g
    · rfl
    · rcases (hhas g).mp hq with h0 | h0
      · exact absurd h0 (by cases g <;> simp [Ext.Acc.init, Ext.Acc.has])
      · exact absurd h0 hm
  constructor
  · intro f hf hnot hothers
    rw [hrun]
    fin_cases hf
    · have h1 : acc2.id = none :=
        Option.not_isSome_iff_eq_none.mp
          (by simp [show acc2.id.isSome = false from habs Ext.Field.id hnot])
      simp [Ext.finishResponse, h1, Ext.fieldName]
    · obtain ⟨x1, e1⟩ := Option.isSome_iff_exists.mp
        (show acc2.id.isSome = true from
          hpres Ext.Field.id (hothers Ext.Field.id (by simp [Ext.requiredFields]) (by decide)))
      have h1 : acc2.choices = none :=
        Option.not_isSome_iff_eq_none.mp
          (by simp [show acc2.choices.isSome = false from habs Ext.Field.choices hnot])
      simp [Ext.finishResponse, e1, h1, Ext.fieldName]
    · obtain ⟨x1, e1⟩ := Option.isSome_iff_exists.mp
        (show acc2.id.isSome = true from
          hpres Ext.Field.id (hothers Ext.Field.id (by simp [Ext.requiredFields]) (by decide)))
      obtain ⟨x2, e2⟩ := Option.isSome_iff_exists.mp
        (show acc2.choices.isSome = true from
          hpres Ext.Field.choices (hothers Ext.Field.choices (by simp [Ext.requiredFields]) (by decide)))
      have h1 : acc2.created = none :=
        Option.not_isSome_iff_eq_none.mp
          (by simp [show acc2.created.isSome = false from habs Ext.Field.created hnot])
      simp [Ext.finishResponse, e1, e2, h1, Ext.fieldName]
    · obtain ⟨x1, e1⟩ := Option.isSome_iff_exists.mp
        (show acc2.id.isSome = true from
          hpres Ext.Field.id (hothers Ext.Field.id (by simp [Ext.requiredFields]) (by decide)))
      obtain ⟨x2, e2⟩ := Option.isSome_iff_exists.mp
        (show acc2.choices.isSome = true from
          hpres Ext.Field.choices (hothers Ext.Field.choices (by simp [Ext.requiredFields]) (by decide)))
      obtain ⟨x3, e3⟩ := Option.isSome_iff_exists.mp
        (show acc2.created.isSome = true from
          hpres Ext.Field.created (hothers Ext.Field.created (by simp [Ext.requiredFields]) (by decide)))
      have h1 : acc2.model = none :=
        Option.not_isSome_iff_eq_none.mp
          (by simp [show acc2.model.isSome = false from habs Ext.Field.model hnot])
      simp [Ext.finishResponse, e1, e2, e3, h1, Ext.fieldName]
    · obtain ⟨x1, e1⟩ := Option.isSome_iff_exists.mp
        (show acc2.id.isSome = true from
          hpres Ext.Field.id (hothers Ext.Field.id (by simp [Ext.requiredFields]) (by decide)))
      obtain ⟨x2, e2⟩ := Option.isSome_iff_exists.mp
        (show acc2.choices.isSome = true from
          hpres Ext.Field.choices (hothers Ext.Field.choices (by simp [Ext.requiredFields]) (by decide)))
      obtain ⟨x3, e3⟩ := Option.isSome_iff_exists.mp
        (show acc2.created.isSome = true from
          hpres Ext.Field.created (hothers Ext.Field.created (by simp [Ext.requiredFields]) (by decide)))
      obtain ⟨x4, e4⟩ := Option.isSome_iff_exists.mp
        (show acc2.model.isSome = true from
          hpres Ext.Field.model (hothers Ext.Field.model (by simp [Ext.requiredFields]) (by decide)))
      have h1 : acc2.object = none :=
        Option.not_isSome_iff_eq_none.mp
          (by simp [show acc2.object.isSome = false from habs Ext.Field.object hnot])
      simp [Ext.finishResponse, e1, e2, e3, e4, h1, Ext.fieldName]
  · intro hall
    rw [hrun]
    exact Ext.finishResponse_total
      (hpres Ext.Field.id (hall Ext.Field.id (by simp [Ext.requiredFields])))
      (hpres Ext.Field.choices (hall Ext.Field.choices (by simp [Ext.requiredFields])))
      (hpres Ext.Field.created (hall Ext.Field.created (by simp [Ext.requiredFields])))
      (hpres Ext.Field.model (hall Ext.Field.model (by simp [Ext.requiredFields])))
      (hpres Ext.Field.object (hall Ext.Field.object (by simp [Ext.requiredFields])))

/-- C3 (witness): a concrete document missing only object fails with the
missing-field error naming object, and a concrete document with exactly the
five required fields decodes successfully. -/
theorem claim_c3_witness :
    Ext.CreateChatCompletionResponse.deserialize (.obj doc3entries)
      = .error (.missingField "object") ∧
    isOkD (Ext.CreateChatCompletionResponse.deserialize (.obj doc1entries)) = true := by
  constructor
  · exact (claim_c3 doc3entries (by decide) (by decide)).1 Ext.Field.object (by decide)
      (by decide) (by decide)
  · exact (claim_c3 doc1entries (by decide) (by decide)).2 (by decide)

/-- C4: a second occurrence of the same recognized key at the top level is
rejected with the duplicate-field error naming that key (the walk up to and
including the first occurrence being otherwise clean). -/
theorem claim_c4 (l1 l2 l3 : List (String × Json)) (k : String) (v v2 : Json)
    (f : Ext.Field) (hcf : Ext.classifyField k = some f)
    (hrec : ∀ kv ∈ l1 ++ (k, v) :: l2, Ext.recognizedOk kv = true)
    (hnd : ((l1 ++ (k, v) :: l2).map Prod.fst).Nodup) :
    Ext.CreateChatCompletionResponse.deserialize
      (.obj (l1 ++ (k, v) :: l2 ++ (k, v2) :: l3))
      = .error (.duplicateField (Ext.fieldName f)) := by
  obtain ⟨acc2, hloop, hhas⟩ := Ext.visitLoop_total (l1 ++ (k, v) :: l2) Ext.Acc.init hrec hnd
    (fun kv hm g hcg => by cases g <;> rfl)
  have hmem : Ext.fieldName f ∈ (l1 ++ (k, v) :: l2).map Prod.fst := by
    rw [← Ext.classifyField_eq_name hcf]
    simp
  have hseen : Ext.Acc.has acc2 f = true := (hhas f).mpr (Or.inr hmem)
  have hsplit : l1 ++ (k, v) :: l2 ++ (k, v2) :: l3
      = (l1 ++ (k, v) :: l2) ++ ((k, v2) :: l3) := by simp
  rw [hsplit]
  have hv : Ext.visitLoop ((l1 ++ (k, v) :: l2) ++ ((k, v2) :: l3)) Ext.Acc.init
      = .error (.duplicateField (Ext.fieldName f)) := by
    rw [Ext.visitLoop_append, hloop]
    exact Ext.visitLoop_cons_dup hcf hseen
  exact Ext.deserialize_obj_err hv

/-- C4 (witness): a document with two id keys at the top level fails with
the duplicate-field error naming id. -/
theorem claim_c4_witness :
    Ext.CreateChatCompletionResponse.deserialize
      (.obj [("id", .str "a"), ("id", .str "b")])
      = .error (.duplicateField "id") :=
  claim_c4 [] [] [] "id" (.str "a") (.str "b") Ext.Field.id rfl (by decide) (by decide)

/-- C5 (counterexample): an otherwise-valid document augmented with the
unrecognized top-level key beta_flag does not decode successfully — the
hand-written Field enum has no catch-all variant, so the key is rejected
with an unknown-variant error, while the same document without the key
decodes fine. -/
theorem claim_c5_counterexample :
    Ext.CreateChatCompletionResponse.deserialize doc5
      = .error (.unknownVariant "beta_flag") ∧
    Ext.CreateChatCompletionResponse.deserialize doc1 = .ok r1 :=
  ⟨rfl, rfl⟩

/-- C5 (amended): an unrecognized top-level key is not ignored: decode fails
with the unknown-variant error naming that key as soon as it is reached
(after any clean recognized prefix), for any value and any remaining
entries. -/
theorem claim_c5_amended (l1 l2 : List (String × Json)) (k : String) (v : Json)
    (hun : Ext.classifyField k = none)
    (hrec : ∀ kv ∈ l1, Ext.recognizedOk kv = true)
    (hnd : (l1.map Prod.fst).Nodup) :
    Ext.CreateChatCompletionResponse.deserialize (.obj (l1 ++ (k, v) :: l2))
      = .error (.unknownVariant k) := by
  obtain ⟨acc2, hloop, _⟩ := Ext.visitLoop_total l1 Ext.Acc.init hrec hnd
    (fun kv hm g hcg => by cases g <;> rfl)
  have hv : Ext.visitLoop (l1 ++ (k, v) :: l2) Ext.Acc.init
      = .error (.unknownVariant k) := by
    rw [Ext.visitLoop_append, hloop]
    show Ext.visitLoop ((k, v) :: l2) acc2 = .error (.unknownVariant k)
    rw [Ext.visitLoop, hun]
  exact Ext.deserialize_obj_err hv

/-- C5 (amended, witness): appending beta_flag to a clean valid prefix makes
decode fail with the unknown-variant error naming beta_flag. -/
theorem claim_c5_amended_witness :
    Ext.CreateChatCompletionResponse.deserialize
      (.obj (doc1entries ++ [("beta_flag", .bool true)]))
      = .error (.unknownVariant "beta_flag") :=
  claim_c5_amended doc1entries [] "beta_flag" (.bool true) rfl (by decide) (by decide)

/-- C7 (counterexample): a document with system_fingerprint present as an
explicit null does not decode like the document with the key omitted: the
hand-written visitor decodes the value at the bare String type, so the null
is a type error, while omitting the key succeeds with the slot absent. -/
theorem claim_c7_counterexample :
    Ext.CreateChatCompletionResponse.deserialize doc7 = .error (.invalidType "string") ∧
    Ext.CreateChatCompletionResponse.deserialize doc1 = .ok r1 ∧
    r1.vanilla.system_fingerprint = none :=
  ⟨rfl, rfl, rfl⟩

/-- C7 (amended): whenever the walk reaches a system_fingerprint entry whose
value is null (after a clean recognized prefix not containing that key),
decode fails with a type error expecting a string; the absent slot arises
only from omitting the key. -/
theorem claim_c7_amended (l1 l2 : List (String × Json))
    (hrec : ∀ kv ∈ l1, Ext.recognizedOk kv = true)
    (hnd : (l1.map Prod.fst).Nodup)
    (hnsf : "system_fingerprint" ∉ l1.map Prod.fst) :
    Ext.CreateChatCompletionResponse.deserialize
      (.obj (l1 ++ ("system_fingerprint", .null) :: l2))
      = .error (.invalidType "string") := by
  obtain ⟨acc2, hloop, hhas⟩ := Ext.visitLoop_total l1 Ext.Acc.init hrec hnd
    (fun kv hm g hcg => by cases g <;> rfl)
  have hsf : Ext.Acc.has acc2 Ext.Field.systemFingerprint = false := by
    cases hq : Ext.Acc.has acc2 Ext.Field.systemFingerprint
    · rfl
    · rcases (hhas Ext.Field.systemFingerprint).mp hq with h0 | h0
      · exact absurd h0 (by simp [Ext.Acc.init, Ext.Acc.has])
      · exact absurd h0 hnsf
  have hv : Ext.visitLoop (l1 ++ ("system_fingerprint", .null) :: l2) Ext.Acc.init
      = .error (.invalidType "string") := by
    rw [Ext.visitLoop_append, hloop]
    exact Ext.visitLoop_cons_step_err
      (show Ext.classifyField "system_fingerprint" = some Ext.Field.systemFingerprint from rfl)
      hsf rfl
  exact Ext.deserialize_obj_err hv

/-- C7 (amended, witness): the valid prefix doc1entries followed by a null
system_fingerprint fails with the string type error. -/
theorem claim_c7_amended_witness :
    Ext.CreateChatCompletionResponse.deserialize
      (.obj (doc1entries ++ [("system_fingerprint", .null)]))
      = .error (.invalidType "string") :=
  claim_c7_amended doc1entries [] (by decide) (by decide) (by decide)

namespace Ext

/-- An extended choice decoded from an object without a
content_filter_results key has an absent extension slot. -/
theorem extChoice_deserialize_nocfr {cj : Json} {c : ChatChoice}
    (hk : objHasKey cj "content_filter_results" = false)
    (h : ChatChoice.deserialize cj = .ok c) :
    c.content_filter_results = none := by
  cases cj <;> simp only [ChatChoice.deserialize] at h <;> try (injection h)
  case obj es =>
    have hmem : "content_filter_results" ∉ es.map Prod.fst := by
      simpa [objHasKey, decide_eq_false_iff_not] using hk
    have h2 := extLoop_cfr_absent es none [] c hmem h
    simpa using h2

end Ext

/-- C6 (counterexample): a document whose two base choices carry extension
data for only the first (extension length 1 against base length 2 in the
spec's parallel-collection reading) is decoded successfully — no
CardinalityMismatch failure exists in the code, because extension data
travels inline inside each choice object rather than as a separate parallel
collection. -/
theorem claim_c6_counterexample :
    Ext.CreateChatCompletionResponse.deserialize doc6 = .ok r6 ∧
    r6.choices.length = 2 ∧
    r6.choices.map (fun c => c.content_filter_results.isSome) = [true, false] :=
  ⟨rfl, rfl, rfl⟩

/-- C6 (amended): the merged choices and the embedded base choices always
have equal length, by construction of the merged record (the base list is
the projection of the merged list); no cardinality check exists or is
needed, and per-choice extension data may be present on any subset of
choices. -/
theorem claim_c6_amended (d : Json) (r : Ext.CreateChatCompletionResponse)
    (h : Ext.CreateChatCompletionResponse.deserialize d = .ok r) :
    r.choices.length = r.vanilla.choices.length ∧
    r.vanilla.choices = r.choices.map Ext.ChatChoice.vanilla := by
  have hp := Ext.deserialize_ok_vanilla_proj h
  exact ⟨by rw [hp, List.length_map], hp⟩

/-- C6 (witness): the lengths agree on the concrete mixed-extension
document. -/
theorem claim_c6_witness :
    r6.choices.length = r6.vanilla.choices.length :=
  (claim_c6_amended doc6 r6 rfl).1

/-- C8 (counterexample): a value shaped exactly as a code/message report
decodes to the success variant of the filtering-outcome union (with every
report slot absent), not to the error-report variant: the success shape is
tried first and, having only optional fields and ignoring unknown keys, it
matches any object. -/
theorem claim_c8_counterexample :
    AsyncOpenai.ContentFilteringResults.deserialize AsyncOpenai.ChoiceResults.deserialize
      (.obj [("code", .str "err42"), ("message", .str "backend down")])
      = .ok (.Ok emptyChoiceResults) ∧
    AsyncOpenai.ContentFilteringResults.deserialize AsyncOpenai.ChoiceResults.deserialize
      (.obj [("code", .str "err42"), ("message", .str "backend down")])
      ≠ .ok (.Err { code := "err42", message := "backend down" }) :=
  ⟨rfl, fun h => nomatch h⟩

/-- C8 (amended): the filtering-outcome union is resolved purely
structurally with no tag, with the success shape tried first: the
error-report variant is produced exactly when the success shape fails to
decode and the code/message shape succeeds; a value matching neither shape
fails with the untagged no-variant-matched error; and a value shaped
code/message (with both values strings) always matches the success shape,
with every report slot absent. -/
theorem claim_c8_amended :
    (∀ (v : Json) (e : AsyncOpenai.Error),
       AsyncOpenai.ContentFilteringResults.deserialize AsyncOpenai.ChoiceResults.deserialize v
         = .ok (.Err e) →
       isOkD (AsyncOpenai.ChoiceResults.deserialize v) = false ∧
       AsyncOpenai.Error.deserialize v = .ok e) ∧
    (∀ (v : Json) (e : DErr),
       AsyncOpenai.ContentFilteringResults.deserialize AsyncOpenai.ChoiceResults.deserialize v
         = .error e →
       isOkD (AsyncOpenai.ChoiceResults.deserialize v) = false ∧
       isOkD (AsyncOpenai.Error.deserialize v) = false ∧
       e = .untaggedNoMatch "ContentFilteringResults") ∧
    (∀ code msg : String,
       AsyncOpenai.ContentFilteringResults.deserialize AsyncOpenai.ChoiceResults.deserialize
         (.obj [("code", .str code), ("message", .str msg)])
         = .ok (.Ok emptyChoiceResults)) := by
  refine ⟨?_, ?_, ?_⟩
  · intro v e h
    cases hdt : AsyncOpenai.ChoiceResults.deserialize v with
    | ok t => simp [AsyncOpenai.ContentFilteringResults.deserialize, hdt] at h
    | error e1 =>
      refine ⟨by simp [isOkD, hdt], ?_⟩
      simp only [AsyncOpenai.ContentFilteringResults.deserialize, hdt] at h
      cases hde : AsyncOpenai.Error.deserialize v with
      | ok e2 =>
        rw [hde] at h
        simp only [Except.ok.injEq, AsyncOpenai.ContentFilteringResults.Err.injEq] at h
        rw [h]
      | error e3 =>
        rw [hde] at h
        simp at h
  · intro v e h
    cases hdt : AsyncOpenai.ChoiceResults.deserialize v with
    | ok t => simp [AsyncOpenai.ContentFilteringResults.deserialize, hdt] at h
    | error e1 =>
      simp only [AsyncOpenai.ContentFilteringResults.deserialize, hdt] at h
      cases hde : AsyncOpenai.Error.deserialize v with
      | ok e2 => rw [hde] at h; simp at h
      | error e3 =>
        rw [hde] at h
        simp only [Except.error.injEq] at h
        exact ⟨by simp [isOkD, hdt], by simp [isOkD, hde], h.symm⟩
  · intro code msg
    rfl

/-- C8 (witness): a report whose hate entry is malformed but which carries
code and message decodes through the error-report fallback, and a
non-object value fails both shapes. -/
theorem claim_c8_witness :
    isOkD (AsyncOpenai.ChoiceResults.deserialize
      (.obj [("hate", .num 5), ("code", .str "c"), ("message", .str "m")])) = false ∧
    AsyncOpenai.Error.deserialize
      (.obj [("hate", .num 5), ("code", .str "c"), ("message", .str "m")])
      = .ok { code := "c", message := "m" } ∧
    isOkD (AsyncOpenai.ChoiceResults.deserialize (.num 3)) = false ∧
    isOkD (AsyncOpenai.Error.deserialize (.num 3)) = false := by
  have h1 := claim_c8_amended.1
    (.obj [("hate", .num 5), ("code", .str "c"), ("message", .str "m")])
    { code := "c", message := "m" } (by rfl)
  have h2 := claim_c8_amended.2.1 (.num 3)
    (.untaggedNoMatch "ContentFilteringResults") (by rfl)
  exact ⟨h1.1, h1.2, h2.1, h2.2.1⟩

/-- C9: for every successful decode, the base record's choices are exactly
the positional projection of the merged choices (same length, same order,
i-th base choice equal to the vanilla part of the i-th merged choice), and
a document with zero extension fields yields a record whose
prompt_filter_results and every per-choice extension slot are absent. -/
theorem claim_c9 (d : Json) (r : Ext.CreateChatCompletionResponse)
    (h : Ext.CreateChatCompletionResponse.deserialize d = .ok r) :
    r.vanilla.choices = r.choices.map Ext.ChatChoice.vanilla ∧
    r.vanilla.choices.length = r.choices.length ∧
    (∀ i : Nat, r.vanilla.choices.get? i = (r.choices.get? i).map Ext.ChatChoice.vanilla) ∧
    (extensionFree d = true →
       r.prompt_filter_results = none ∧
       ∀ c ∈ r.choices, c.content_filter_results = none) := by
  obtain ⟨entries, acc, hd, hloop, hfin⟩ := Ext.deserialize_ok_elim h
  obtain ⟨hchoices, hproj, hpfr⟩ := Ext.finishResponse_ok_proj hfin
  subst hd
  refine ⟨hproj, by rw [hproj, List.length_map], ?_, ?_⟩
  · intro i
    rw [hproj]
    exact List.get?_map Ext.ChatChoice.vanilla r.choices i
  · intro hef
    simp only [extensionFree, Bool.and_eq_true, List.all_eq_true, decide_eq_true_eq] at hef
    constructor
    · rw [hpfr, Ext.visitLoop_pfr_const entries Ext.Acc.init acc hef.1 hloop]
      rfl
    · intro c hc
      rcases Ext.visitLoop_choices_src entries Ext.Acc.init acc hloop r.choices hchoices
        with h0 | ⟨v, hvm, hvd⟩
      · exact absurd h0 (by simp [Ext.Acc.init])
      · obtain ⟨items, hveq, haux⟩ := decodeList_ok_arr hvd
        subst hveq
        have hall := hef.2 ("choices", .arr items) hvm
        simp only [if_true, List.all_eq_true, Bool.not_eq_true'] at hall
        obtain ⟨cj, hcjm, hcjd⟩ := decodeListAux_mem haux c hc
        exact Ext.extChoice_deserialize_nocfr (hall cj hcjm) hcjd

/-- C9 (witness): on a concrete zero-extension document the projection law
holds and every extension slot is absent. -/
theorem claim_c9_witness :
    r9.vanilla.choices = r9.choices.map Ext.ChatChoice.vanilla ∧
    r9.prompt_filter_results = none := by
  have h := claim_c9 doc9 r9 (by rfl)
  exact ⟨h.1, (h.2.2.2 (by rfl)).1⟩
